import Mathlib

/-!
# Verification of the reprozip-rs tracing engine

A shallow embedding of `src/lib.rs` and `src/database.rs` of the
`remram44/reprozip-rs` repository, together with proofs about the claims of
its specification.

Modelling conventions:

* OS thread identifiers (`nix::unistd::Pid`, an `i32`) become `Int`.
* Byte strings (`&[u8]`) become `List Nat`; `CString::new` fails exactly when
  a null byte occurs in the slice.
* The `Database` recorder of `src/database.rs` is a stub whose observable
  effect is a `println!` record per call plus the `next_process : u32`
  counter.  We model the printed record as an appended `DbEvent`, and the
  `u32` counter as a `Nat` reduced modulo `2 ^ 32` on increment.  Each stub
  returns `Ok`, which the embedding mirrors with `Except.ok`.
* `HashMap` is modelled by an association list in which `ainsert` first
  erases the key, matching `HashMap::insert`'s replace-on-collision
  semantics and keeping keys unique.
* Kernel nondeterminism (the `waitpid` stream, `ptrace` call outcomes,
  `fork` outcome) is supplied by oracle structures; `ptrace` calls made by
  the event loop are logged as `PtraceAction`s.  A Rust `panic!`
  (`unwrap` / `expect` / out-of-bounds indexing) is modelled by an explicit
  `panik` outcome.
-/

/-- Kernel thread identifier (`nix::unistd::Pid`, an `i32`). -/
abbrev Pid := Int

/-- POSIX signal, as used by the source (`SIGTRAP` and `SIGSTOP` are the only
signals it distinguishes; everything else is `sigother`). -/
inductive Signal where
  | sigtrap
  | sigstop
  | sigother (n : Nat)
deriving DecidableEq, Repr

/-- `enum Error` of `src/lib.rs`. -/
inductive Error where
  | InvalidCommand
  | Internal (msg : String)
deriving DecidableEq, Repr

/-- `enum ExitStatus` of `src/lib.rs`: a return code or a terminating signal. -/
inductive ExitStatus where
  | Return (code : Int)
  | Signal (sig : Signal)
deriving DecidableEq, Repr

/-- Filesystem path; only carried around, never inspected. -/
abbrev FsPath := String

/-- `struct ProcessId(u32)` of `src/database.rs`. -/
structure ProcessId where
  val : Nat
deriving DecidableEq, Repr

/-- The `FileOp` bitflags of `src/database.rs`, as the underlying `u32`. -/
abbrev FileOp := Nat

def FileOp.READ : FileOp := 1
def FileOp.WRITE : FileOp := 2
def FileOp.WDIR : FileOp := 4
def FileOp.STAT : FileOp := 8
def FileOp.LINK : FileOp := 16

/-- One observable call on the `Database` recorder (the stub's `println!`
record, plus a marker for `commit`). -/
inductive DbEvent where
  | addProcess (parent : Option ProcessId) (working_dir : FsPath)
      (is_thread : Bool) (id : ProcessId)
  | addFileOpen (id : ProcessId) (path : FsPath) (mode : FileOp)
      (is_directory : Bool)
  | processExit (id : ProcessId) (status : ExitStatus)
  | commitMark
deriving DecidableEq, Repr

def DbEvent.isExit : DbEvent → Bool
  | .processExit _ _ => true
  | _ => false

def DbEvent.isAddProcess : DbEvent → Bool
  | .addProcess _ _ _ _ => true
  | _ => false

def DbEvent.isCommit : DbEvent → Bool
  | .commitMark => true
  | _ => false

/-- `struct Database` of `src/database.rs` (`next_process: u32`), extended
with the log of its observable records. -/
structure Database where
  next_process : Nat
  events : List DbEvent
deriving DecidableEq, Repr

/-- `Database::new`: ignores the path, starts the counter at 0. -/
def Database.new (path : FsPath) : Database :=
  ⟨0, []⟩

/-- `Database::add_process`: hands out `next_process` and increments it
(`u32` arithmetic, hence the modulus).  The stub always returns `Ok`. -/
def Database.add_process (db : Database) (parent : Option ProcessId)
    (working_dir : FsPath) (is_thread : Bool) :
    Except Error (ProcessId × Database) :=
  let proc := db.next_process
  .ok (⟨proc⟩,
    { next_process := (db.next_process + 1) % 2 ^ 32,
      events := db.events ++ [.addProcess parent working_dir is_thread ⟨proc⟩] })

/-- `Database::add_file_open`: the stub records the call and returns `Ok`
unconditionally — in particular it performs no check on `mode`. -/
def Database.add_file_open (db : Database) (id : ProcessId) (path : FsPath)
    (mode : FileOp) (is_directory : Bool) : Except Error Database :=
  .ok { db with events := db.events ++ [.addFileOpen id path mode is_directory] }

/-- `Database::process_exit`: records the call, always `Ok`. -/
def Database.process_exit (db : Database) (id : ProcessId)
    (status : ExitStatus) : Except Error Database :=
  .ok { db with events := db.events ++ [.processExit id status] }

/-- `Database::commit`: the source consumes the database and returns
`Ok(())`; we return the log extended with a marker so that the call is
observable. -/
def Database.commit (db : Database) : Except Error Database :=
  .ok { db with events := db.events ++ [.commitMark] }

/-- Iterate `add_process(None, wd, false)` `n` times, collecting the
returned identifiers (used to state the identifier-freshness claim). -/
def addProcessIter (db : Database) (wd : FsPath) : Nat → List ProcessId × Database
  | 0 => ([], db)
  | n + 1 =>
    match db.add_process none wd false with
    | .ok (id, db1) =>
      let rest := addProcessIter db1 wd n
      (id :: rest.1, rest.2)
    | .error _ => ([], db)

/-! ## Association-list maps (model of `HashMap`) -/

def alookup {κ α : Type} [DecidableEq κ] (k : κ) : List (κ × α) → Option α
  | [] => none
  | (k1, v) :: t => if k = k1 then some v else alookup k t

def aerase {κ α : Type} [DecidableEq κ] (k : κ) : List (κ × α) → List (κ × α)
  | [] => []
  | (k1, v) :: t => if k = k1 then aerase k t else (k1, v) :: aerase k t

/-- `HashMap::insert`: replaces any existing binding of the key. -/
def ainsert {κ α : Type} [DecidableEq κ] (k : κ) (v : α)
    (l : List (κ × α)) : List (κ × α) :=
  (k, v) :: aerase k l

/-! ## The process registry (`Processes` of `src/lib.rs`) -/

/-- `struct ThreadGroup` of `src/lib.rs`. -/
structure ThreadGroup where
  working_dir : FsPath
deriving DecidableEq, Repr

/-- `struct ThreadInfo` of `src/lib.rs` (the `Rc<ThreadGroup>` becomes a
plain value; the source never mutates a group). -/
structure ThreadInfo where
  identifier : ProcessId
  tid : Pid
  thread_group : ThreadGroup
deriving DecidableEq, Repr

/-- `enum Thread` of `src/lib.rs`. -/
inductive Thread where
  | Unknown (tid : Pid)
  | Allocated (info : ThreadInfo)
  | Attached (info : ThreadInfo)
deriving DecidableEq, Repr

/-- `struct Processes` of `src/lib.rs` (logger dropped: logging is
side-effect-only). -/
structure Processes where
  pid2process : List (Pid × Thread)
  identifier2pid : List (ProcessId × Pid)
deriving DecidableEq, Repr

/-- `Processes::new`. -/
def Processes.new : Processes :=
  ⟨[], []⟩

/-- Outcome of a fallible operation that can also `panic!`. -/
inductive Res (α : Type) where
  | ok (a : α)
  | err (e : Error)
  | panik
deriving DecidableEq, Repr

/-- `Processes::add_first`: registers the root (no parent) as `Allocated`
and enters it in both maps. -/
def Processes.add_first (ps : Processes) (tid : Pid) (thread_group : ThreadGroup)
    (db : Database) : Except Error (ProcessId × Processes × Database) :=
  match db.add_process none thread_group.working_dir false with
  | .error e => .error e
  | .ok (identifier, db1) =>
    .ok (identifier,
      { ps with
          pid2process := ainsert tid
            (.Allocated ⟨identifier, tid, thread_group⟩) ps.pid2process,
          identifier2pid := ainsert identifier tid ps.identifier2pid },
      db1)

/-- `Processes::add_unknown`: inserts `Unknown{tid}`; always `Ok`. -/
def Processes.add_unknown (ps : Processes) (tid : Pid) : Processes :=
  { ps with pid2process := ainsert tid (.Unknown tid) ps.pid2process }

/-- `Processes::exit`: `remove(&tid).unwrap()` (panic when absent), then for
`Allocated`/`Attached` drop the identifier entry and report
`process_exit(identifier, status)`; `Unknown` exits silently. -/
def Processes.exit (ps : Processes) (tid : Pid) (exitstatus : ExitStatus)
    (db : Database) : Res (Processes × Database) :=
  match alookup tid ps.pid2process with
  | none => .panik
  | some thread =>
    let ps1 : Processes :=
      { ps with pid2process := aerase tid ps.pid2process }
    match thread with
    | .Allocated info | .Attached info =>
      let ps2 : Processes :=
        { ps1 with identifier2pid := aerase info.identifier ps1.identifier2pid }
      match db.process_exit info.identifier exitstatus with
      | .ok db1 => .ok (ps2, db1)
      | .error e => .err e
    | .Unknown _ => .ok (ps1, db)

/-- `Processes::is_empty`. -/
def Processes.is_empty (ps : Processes) : Bool :=
  ps.pid2process.isEmpty

/-- `Processes::has_pid`. -/
def Processes.has_pid (ps : Processes) (pid : Pid) : Bool :=
  (alookup pid ps.pid2process).isSome

/-! ## The event loop (`Tracer::trace_process` of `src/lib.rs`) -/

/-- A `ptrace` request issued by the event loop.  `resume` is
`ptrace::syscall(pid)`, which restarts the tracee up to its next
system-call stop; the variant used by the source passes no signal, so the
injected signal is recorded as `none` (the signal is suppressed). -/
inductive PtraceAction where
  | setOptions (pid : Pid)
  | resume (pid : Pid) (inject : Option Signal)
  | getSigInfo (pid : Pid)
deriving DecidableEq, Repr

/-- Oracle for the outcomes of the kernel calls the loop makes:
`ptrace::setoptions`, `ptrace::syscall` and `ptrace::getsiginfo`. -/
structure KernelEnv where
  setopt_ok : Pid → Bool
  resume_ok : Pid → Bool
  siginfo_ok : Pid → Bool

/-- `nix::sys::wait::WaitStatus`, restricted to the arms the source
matches (`OtherEvt` stands for the `_ => {}` arm). -/
inductive WaitStatus where
  | Exited (pid : Pid) (code : Int)
  | Signaled (pid : Pid) (sig : Signal) (core_dumped : Bool)
  | PtraceEvent (pid : Pid) (sig : Signal) (event : Int)
  | Stopped (pid : Pid) (sig : Signal)
  | PtraceSyscall (pid : Pid)
  | OtherEvt
deriving DecidableEq, Repr

/-- The mutable state of `Tracer::trace_process`: the registry, the
recorder, and the `first_exit_code` local. -/
structure LoopState where
  processes : Processes
  database : Database
  first_exit_code : Option ExitStatus
deriving DecidableEq, Repr

/-- Result of handling one `waitpid` event: continue the loop, `break`,
propagate an `Err` via a `?`, or `panic!`.  Each arm carries the state and
the `ptrace` calls issued while handling the event (`panik` carries the
pre-panic state; after a panic nothing is observable). -/
inductive StepRes where
  | cont (s : LoopState) (acts : List PtraceAction)
  | brk (s : LoopState) (acts : List PtraceAction)
  | err (s : LoopState) (e : Error) (acts : List PtraceAction)
  | panik (s : LoopState) (acts : List PtraceAction)
deriving DecidableEq, Repr

def StepRes.state : StepRes → LoopState
  | .cont s _ => s
  | .brk s _ => s
  | .err s _ _ => s
  | .panik s _ => s

def StepRes.acts : StepRes → List PtraceAction
  | .cont _ a => a
  | .brk _ a => a
  | .err _ _ a => a
  | .panik _ a => a

/-- The `Exited`/`Signaled` arms of the loop: remember the status when the
event is the root tracee's, call `Processes::exit`, and `break` when the
registry drains. -/
def handleTerm (first_proc : Pid) (s : LoopState) (pid : Pid)
    (exitstatus : ExitStatus) : StepRes :=
  let fec := if pid = first_proc then some exitstatus else s.first_exit_code
  match Processes.exit s.processes pid exitstatus s.database with
  | .panik => .panik s []
  | .err e => .err { s with first_exit_code := fec } e []
  | .ok (ps1, db1) =>
    let s1 : LoopState := ⟨ps1, db1, fec⟩
    if ps1.is_empty then .brk s1 [] else .cont s1 []

/-- The `Stopped` arm of the loop: first-seen tracees are registered
`Unknown` and not resumed; an `Allocated` tracee is promoted to `Attached`,
gets its options set and its first resume; otherwise (`Attached`, and also a
re-stopped `Unknown`) the signal-delivery policy applies. -/
def handleStopped (env : KernelEnv) (s : LoopState) (pid : Pid)
    (sig : Signal) : StepRes :=
  match alookup pid s.processes.pid2process with
  | none =>
    let s1 := { s with processes := s.processes.add_unknown pid }
    if env.setopt_ok pid then .cont s1 [.setOptions pid]
    else .err s1 (.Internal "setoptions failed") [.setOptions pid]
  | some (.Allocated info) =>
    let s1 := { s with processes :=
      { s.processes with
          pid2process := ainsert pid (.Attached info) s.processes.pid2process } }
    if env.setopt_ok pid then
      if env.resume_ok pid then .cont s1 [.setOptions pid, .resume pid none]
      else .err s1 (.Internal "resume failed")
        [.setOptions pid, .resume pid none]
    else .err s1 (.Internal "setoptions failed") [.setOptions pid]
  | some _ =>
    if sig = .sigtrap then
      if env.resume_ok pid then .cont s [.resume pid none]
      else .err s (.Internal "resume failed") [.resume pid none]
    else
      if env.siginfo_ok pid then
        if env.resume_ok pid then .cont s [.getSigInfo pid, .resume pid none]
        else .err s (.Internal "resume failed")
          [.getSigInfo pid, .resume pid none]
      else
        if sig = .sigstop then .cont s [.getSigInfo pid]
        else
          if env.resume_ok pid then .cont s [.getSigInfo pid, .resume pid none]
          else .err s (.Internal "resume failed")
            [.getSigInfo pid, .resume pid none]

/-- One iteration of the `loop` in `Tracer::trace_process`, dispatching on
the `waitpid` result. -/
def step (env : KernelEnv) (first_proc : Pid) (s : LoopState) :
    WaitStatus → StepRes
  | .Exited pid code => handleTerm first_proc s pid (.Return code)
  | .Signaled pid sig _ => handleTerm first_proc s pid (.Signal sig)
  | .PtraceEvent pid _ _ =>
    if env.resume_ok pid then .cont s [.resume pid none]
    else .err s (.Internal "resume failed") [.resume pid none]
  | .Stopped pid sig => handleStopped env s pid sig
  | .PtraceSyscall pid =>
    if env.resume_ok pid then .cont s [.resume pid none]
    else .err s (.Internal "resume failed") [.resume pid none]
  | .OtherEvt => .cont s []

/-- Overall outcome of the event loop or of a whole `trace` run.  `stuck`
marks a run whose event stream ended before the registry drained (the real
loop would block in `waitpid` forever). -/
inductive RunResult where
  | ok (status : ExitStatus)
  | err (e : Error)
  | panik
  | stuck
deriving DecidableEq, Repr

/-- `Tracer::trace_process`: fold `step` over the `waitpid` stream; on
`break`, return `first_exit_code.expect(…)` (a panic when it was never
set). -/
def loopGo (env : KernelEnv) (first_proc : Pid) :
    LoopState → List WaitStatus → RunResult × LoopState
  | s, [] => (.stuck, s)
  | s, w :: ws =>
    match step env first_proc s w with
    | .cont s1 _ => loopGo env first_proc s1 ws
    | .brk s1 _ =>
      match s1.first_exit_code with
      | some st => (.ok st, s1)
      | none => (.panik, s1)
    | .err s1 e _ => (.err e, s1)
    | .panik s1 _ => (.panik, s1)

/-! ## Entry points (`Tracer::trace`, `Tracer::trace_arg0`) -/

/-- A Rust byte string (`&[u8]`). -/
abbrev Bytes := List Nat

/-- `CString::new`: fails exactly when the bytes contain a null byte. -/
def cstringNew (s : Bytes) : Option Bytes :=
  if 0 ∈ s then none else some s

/-- The argument-conversion loop of `Tracer::trace_arg0`: converts every
element, failing on the first element containing a null byte. -/
def cstringAll : List Bytes → Option (List Bytes)
  | [] => some []
  | c :: t =>
    match cstringNew c with
    | none => none
    | some c1 =>
      match cstringAll t with
      | none => none
      | some t1 => some (c1 :: t1)

/-- Environment of one `trace` run: the `fork` outcome, the child's pid,
the tracer's working directory, the `waitpid` stream and the kernel-call
oracle. -/
structure TraceEnv where
  fork_ok : Bool
  child : Pid
  cwd : FsPath
  events : List WaitStatus
  kernel : KernelEnv

/-- Observable outcome of a `trace`/`trace_arg0` run: the returned value
(or failure mode), the recorder calls made, the root identifier returned by
`add_first`, and whether `fork` was reached. -/
structure RunLog where
  result : RunResult
  dbEvents : List DbEvent
  rootId : Option ProcessId
  forked : Bool
deriving DecidableEq, Repr

/-- `Tracer::trace_arg0` (parent side; the child branch of the `fork` is
`childRun` below).  Validates the argv elements and the `argv[0]` override,
forks, registers the root, records the synthetic working-directory access,
runs the event loop, and commits on success. -/
def Tracer.trace_arg0 (env : TraceEnv) (command : List Bytes) (arg0 : Bytes)
    (dbpath : FsPath) : RunLog :=
  match cstringAll command with
  | none => ⟨.err .InvalidCommand, [], none, false⟩
  | some _args =>
  match cstringNew arg0 with
  | none => ⟨.err .InvalidCommand, [], none, false⟩
  | some _arg0 =>
  if env.fork_ok then
    let db0 := Database.new dbpath
    match Processes.new.add_first env.child ⟨env.cwd⟩ db0 with
    | .error e => ⟨.err e, db0.events, none, true⟩
    | .ok (identifier, ps1, db1) =>
    match db1.add_file_open identifier env.cwd FileOp.WDIR true with
    | .error e => ⟨.err e, db1.events, some identifier, true⟩
    | .ok db2 =>
    match loopGo env.kernel env.child ⟨ps1, db2, none⟩ env.events with
    | (.ok ret, s1) =>
      match s1.database.commit with
      | .ok db3 => ⟨.ok ret, db3.events, some identifier, true⟩
      | .error e => ⟨.err e, s1.database.events, some identifier, true⟩
    | (.err e, s1) => ⟨.err e, s1.database.events, some identifier, true⟩
    | (.panik, s1) => ⟨.panik, s1.database.events, some identifier, true⟩
    | (.stuck, s1) => ⟨.stuck, s1.database.events, some identifier, true⟩
  else ⟨.err (.Internal "fork failed"), [], none, true⟩

/-- `Tracer::trace`: delegates to `trace_arg0(command, &command[0])`; the
indexing `command[0]` panics on an empty slice before anything else runs. -/
def Tracer.trace (env : TraceEnv) (command : List Bytes) (dbpath : FsPath) :
    RunLog :=
  match command with
  | [] => ⟨.panik, [], none, false⟩
  | c0 :: _ => Tracer.trace_arg0 env command c0 dbpath

/-- The free function `trace` of `src/lib.rs`: `Tracer::new(database)?.trace(command)`. -/
def traceMain (env : TraceEnv) (command : List Bytes) (dbpath : FsPath) :
    RunLog :=
  Tracer.trace env command dbpath

/-- The free function `trace_arg0` of `src/lib.rs`. -/
def traceArg0Main (env : TraceEnv) (command : List Bytes) (arg0 : Bytes)
    (dbpath : FsPath) : RunLog :=
  Tracer.trace_arg0 env command arg0 dbpath

/-! ## The child branch of the spawn protocol -/

/-- Oracle for the child's three kernel interactions: `ptrace::traceme`,
`kill(Pid::this(), SIGSTOP)`, and `execvp`. -/
structure ChildEnv where
  traceme_ok : Bool
  kill_ok : Bool
  exec_ok : Bool

/-- Observable calls of the child branch. -/
inductive ChildAction where
  | traceme
  | selfStop
  | execvpCall (arg0 : Bytes) (args : List Bytes)
deriving DecidableEq, Repr

/-- How the child branch ends: `std::process::exit(code)`, a successful
image replacement, or the panic of `kill(...).expect(…)`. -/
inductive ChildOutcome where
  | exited (code : Nat)
  | execed
  | panicked
deriving DecidableEq, Repr

/-- The `ForkResult::Child` branch of `Tracer::trace_arg0`: request
tracing (exit 125 on failure), stop self with `SIGSTOP`, then `execvp`
(exit 127 on failure). -/
def childRun (env : ChildEnv) (args : List Bytes) (arg0 : Bytes) :
    List ChildAction × ChildOutcome :=
  if env.traceme_ok then
    if env.kill_ok then
      if env.exec_ok then
        ([.traceme, .selfStop, .execvpCall arg0 args], .execed)
      else
        ([.traceme, .selfStop, .execvpCall arg0 args], .exited 127)
    else ([.traceme, .selfStop], .panicked)
  else ([.traceme], .exited 125)

/-! ## Helper predicates and lemmas about the event loop -/

/-- The terminal (`Exited`/`Signaled`) reading of a `waitpid` event. -/
def WaitStatus.termStatus : WaitStatus → Option (Pid × ExitStatus)
  | .Exited pid code => some (pid, .Return code)
  | .Signaled pid sig _ => some (pid, .Signal sig)
  | _ => none

/-- Whether an event is a terminal event of the root tracee. -/
def isRootTerm (fp : Pid) (w : WaitStatus) : Bool :=
  match w.termStatus with
  | some (p, _) => p = fp
  | none => false

/-- Number of terminal events of the root tracee in a `waitpid` stream. -/
def countRootTerm (fp : Pid) (ws : List WaitStatus) : Nat :=
  (ws.filter (isRootTerm fp)).length

/-- The `process_exit` records of a recorder log. -/
def exitEvents (l : List DbEvent) : List DbEvent :=
  l.filter DbEvent.isExit

/-- The number of `commit` calls recorded in a log. -/
def commitCount (l : List DbEvent) : Nat :=
  (l.filter DbEvent.isCommit).length

/-- A TID that the TID map holds, if at all, only as `Unknown`. -/
def unknownOrAbsent (tid : Pid) (l : List (Pid × Thread)) : Prop :=
  alookup tid l = none ∨ ∃ u, alookup tid l = some (.Unknown u)

/-- TID-map shape during the loop before the root exits: the root TID is
held as `Allocated`/`Attached` with the root's info, every other entry is
`Unknown`. -/
def rootOnly (fp : Pid) (info : ThreadInfo) (l : List (Pid × Thread)) : Prop :=
  (alookup fp l = some (.Allocated info) ∨
   alookup fp l = some (.Attached info)) ∧
  ∀ p t, alookup p l = some t → p ≠ fp → ∃ u, t = .Unknown u

/-- TID-map shape after the root exits: every entry is `Unknown`. -/
def allUnknown (l : List (Pid × Thread)) : Prop :=
  ∀ p t, alookup p l = some t → ∃ u, t = .Unknown u

/-- Loop invariant before the root's terminal event. -/
def phaseA (fp : Pid) (info : ThreadInfo) (s : LoopState) : Prop :=
  rootOnly fp info s.processes.pid2process ∧ s.first_exit_code = none ∧
    exitEvents s.database.events = []

/-- Loop invariant after the root's terminal event has been consumed. -/
def phaseB (rootId : ProcessId) (st : ExitStatus) (s : LoopState) : Prop :=
  allUnknown s.processes.pid2process ∧ s.first_exit_code = some st ∧
    exitEvents s.database.events = [.processExit rootId st]

theorem alookup_aerase_self {κ α : Type} [DecidableEq κ] (k : κ)
    (l : List (κ × α)) : alookup k (aerase k l) = none := by
  induction l with
  | nil => rfl
  | cons h t ih =>
    obtain ⟨k1, v⟩ := h
    by_cases hk : k = k1
    · subst hk
      simp [aerase, ih]
    · simp [aerase, alookup, hk, ih]

theorem alookup_aerase_ne {κ α : Type} [DecidableEq κ] {k k1 : κ}
    (h : k ≠ k1) (l : List (κ × α)) :
    alookup k (aerase k1 l) = alookup k l := by
  induction l with
  | nil => rfl
  | cons hd t ih =>
    obtain ⟨k2, v⟩ := hd
    by_cases h1 : k1 = k2
    · subst h1
      simp [aerase, alookup, h, ih]
    · by_cases h2 : k = k2 <;> simp [aerase, alookup, h1, h2, ih]

theorem alookup_ainsert_self {κ α : Type} [DecidableEq κ] (k : κ) (v : α)
    (l : List (κ × α)) : alookup k (ainsert k v l) = some v := by
  simp [ainsert, alookup]

theorem alookup_ainsert_ne {κ α : Type} [DecidableEq κ] {k k1 : κ} (v : α)
    (h : k ≠ k1) (l : List (κ × α)) :
    alookup k (ainsert k1 v l) = alookup k l := by
  simp [ainsert, alookup, h, alookup_aerase_ne h]

theorem alookup_mem {κ α : Type} [DecidableEq κ] {k : κ} {v : α}
    {l : List (κ × α)} (h : alookup k l = some v) : (k, v) ∈ l := by
  induction l with
  | nil => simp [alookup] at h
  | cons hd t ih =>
    obtain ⟨k1, v1⟩ := hd
    by_cases hk : k = k1
    · simp [alookup, hk] at h
      simp [hk, h]
    · simp [alookup, hk] at h
      simp [ih h]

theorem mem_aerase {κ α : Type} [DecidableEq κ] {k : κ} {p : κ × α}
    {l : List (κ × α)} (h : p ∈ aerase k l) : p ∈ l := by
  induction l with
  | nil => simp [aerase] at h
  | cons hd t ih =>
    obtain ⟨k1, v1⟩ := hd
    by_cases hk : k = k1
    · subst hk
      simp [aerase] at h
      simp [ih h]
    · simp [aerase, hk] at h
      rcases h with h | h
      · simp [h]
      · simp [ih h]

/-! ## Identifier freshness (Database.add_process) -/

/-- Counter/identifier relation for `addProcessIter`: with no `u32` overflow,
the identifiers handed out are exactly `next_process, next_process + 1, …`. -/
theorem addProcessIter_spec (wd : FsPath) :
    ∀ (n : Nat) (db : Database), db.next_process + n < 2 ^ 32 →
      (addProcessIter db wd n).1.map ProcessId.val =
        List.range' db.next_process n ∧
      (addProcessIter db wd n).2.next_process = db.next_process + n := by
  intro n
  induction n with
  | zero => intro db _; simp [addProcessIter]
  | succ n ih =>
    intro db h
    have hlt : db.next_process + 1 < 2 ^ 32 := by omega
    have hmod : (db.next_process + 1) % 2 ^ 32 = db.next_process + 1 :=
      Nat.mod_eq_of_lt hlt
    have ih1 := ih { next_process := (db.next_process + 1) % 2 ^ 32,
                     events := db.events ++
                       [.addProcess none wd false ⟨db.next_process⟩] }
      (by simp only [hmod]; omega)
    simp only [hmod] at ih1
    constructor
    · simp only [addProcessIter, Database.add_process, List.map_cons, hmod,
        ih1.1]
      rw [List.range'_succ db.next_process n 1]
    · simp only [addProcessIter, Database.add_process, hmod, ih1.2]
      omega

/-- Claim C3: every sequence of fewer than `2 ^ 32` `add_process` calls on
one `Database` returns pairwise strictly increasing (hence distinct)
identifiers, and the next-identifier counter exceeds every identifier
already handed out. -/
theorem c3_add_process_fresh (path wd : FsPath) (n : Nat) (h : n < 2 ^ 32) :
    (addProcessIter (Database.new path) wd n).1.Pairwise
      (fun a b => a.val < b.val) ∧
    ∀ id ∈ (addProcessIter (Database.new path) wd n).1,
      id.val < (addProcessIter (Database.new path) wd n).2.next_process := by
  have h0 : (Database.new path).next_process = 0 := rfl
  have hs := addProcessIter_spec wd n (Database.new path) (by rw [h0]; omega)
  rw [h0] at hs
  constructor
  · have hp : ((addProcessIter (Database.new path) wd n).1.map
        ProcessId.val).Pairwise (· < ·) := by
      rw [hs.1]
      exact List.pairwise_lt_range' 0 n
    rw [List.pairwise_map] at hp
    exact hp
  · intro id hid
    have hv : id.val ∈ (addProcessIter (Database.new path) wd n).1.map
        ProcessId.val := List.mem_map_of_mem ProcessId.val hid
    rw [hs.1] at hv
    rw [List.mem_range'_1] at hv
    rw [hs.2]
    omega

/-- Witness for C3 at `n = 3`. -/
theorem c3_add_process_fresh_witness :
    (3 : Nat) < 2 ^ 32 ∧
    ((addProcessIter (Database.new "db") "wd" 3).1.Pairwise
       (fun a b => a.val < b.val) ∧
     ∀ id ∈ (addProcessIter (Database.new "db") "wd" 3).1,
       id.val < (addProcessIter (Database.new "db") "wd" 3).2.next_process) :=
  ⟨by decide, c3_add_process_fresh "db" "wd" 3 (by decide)⟩

/-! ## Claims about the registry and the handlers -/

/-- Claim C6: for every TID present in the registry, `Processes::exit`
removes the thread from both maps; an `Allocated`/`Attached` thread
triggers exactly one `process_exit(identifier, status)` record, an
`Unknown` thread exits silently. -/
theorem c6_exit_spec (ps : Processes) (tid : Pid) (st : ExitStatus)
    (db : Database) (thread : Thread)
    (h : alookup tid ps.pid2process = some thread) :
    ∃ ps1 db1, Processes.exit ps tid st db = .ok (ps1, db1) ∧
      alookup tid ps1.pid2process = none ∧
      (match thread with
       | .Unknown _ =>
           ps1.identifier2pid = ps.identifier2pid ∧ db1.events = db.events
       | .Allocated info | .Attached info =>
           alookup info.identifier ps1.identifier2pid = none ∧
           db1.events = db.events ++ [.processExit info.identifier st]) := by
  cases thread with
  | Unknown t =>
    refine ⟨{ ps with pid2process := aerase tid ps.pid2process }, db, ?_, ?_, ?_⟩
    · simp [Processes.exit, h]
    · exact alookup_aerase_self tid _
    · exact ⟨rfl, rfl⟩
  | Allocated info =>
    refine ⟨⟨aerase tid ps.pid2process, aerase info.identifier ps.identifier2pid⟩,
            { db with events := db.events ++ [.processExit info.identifier st] },
            ?_, ?_, ?_⟩
    · simp [Processes.exit, h, Database.process_exit]
    · exact alookup_aerase_self tid _
    · exact ⟨alookup_aerase_self info.identifier _, rfl⟩
  | Attached info =>
    refine ⟨⟨aerase tid ps.pid2process, aerase info.identifier ps.identifier2pid⟩,
            { db with events := db.events ++ [.processExit info.identifier st] },
            ?_, ?_, ?_⟩
    · simp [Processes.exit, h, Database.process_exit]
    · exact alookup_aerase_self tid _
    · exact ⟨alookup_aerase_self info.identifier _, rfl⟩

/-- Witness for C6: a concrete registry holding one `Attached` thread. -/
theorem c6_exit_spec_witness :
    ∃ ps1 db1,
      Processes.exit ⟨[((5 : Pid), .Attached ⟨⟨0⟩, 5, ⟨"/"⟩⟩)], [(⟨0⟩, 5)]⟩
        5 (.Return 0) ⟨1, []⟩ = .ok (ps1, db1) ∧
      alookup (5 : Pid) ps1.pid2process = none ∧
      (alookup (⟨0⟩ : ProcessId) ps1.identifier2pid = none ∧
       db1.events = [] ++ [.processExit ⟨0⟩ (.Return 0)]) :=
  c6_exit_spec ⟨[((5 : Pid), .Attached ⟨⟨0⟩, 5, ⟨"/"⟩⟩)], [(⟨0⟩, 5)]⟩
    5 (.Return 0) ⟨1, []⟩ (.Attached ⟨⟨0⟩, 5, ⟨"/"⟩⟩) (by decide)

/-- Claim C4: for a `Stopped(tid, sig)` event on an `Attached` tracee:
`SIGTRAP` is answered by exactly one resume that injects no signal; any
other signal first queries `getsiginfo`, and the tracee is resumed with the
signal suppressed when the query succeeds, likewise when it fails and
`sig ≠ SIGSTOP`, while a pending `SIGSTOP` with no signal info is not
resumed at all (the state is left untouched and the loop continues). -/
theorem c4_stopped_attached (env : KernelEnv) (first_proc : Pid)
    (s : LoopState) (pid : Pid) (sig : Signal) (info : ThreadInfo)
    (h : alookup pid s.processes.pid2process = some (.Attached info)) :
    (sig = .sigtrap →
      (step env first_proc s (.Stopped pid sig)).acts = [.resume pid none]) ∧
    (sig ≠ .sigtrap → env.siginfo_ok pid = true →
      (step env first_proc s (.Stopped pid sig)).acts =
        [.getSigInfo pid, .resume pid none]) ∧
    (sig ≠ .sigtrap → env.siginfo_ok pid = false → sig ≠ .sigstop →
      (step env first_proc s (.Stopped pid sig)).acts =
        [.getSigInfo pid, .resume pid none]) ∧
    (sig ≠ .sigtrap → env.siginfo_ok pid = false → sig = .sigstop →
      step env first_proc s (.Stopped pid sig) = .cont s [.getSigInfo pid]) := by
  refine ⟨?_, ?_, ?_, ?_⟩
  · intro htrap
    subst htrap
    by_cases hr : env.resume_ok pid = true <;>
      simp [step, handleStopped, h, hr, StepRes.acts]
  · intro htrap hsi
    by_cases hr : env.resume_ok pid = true <;>
      simp [step, handleStopped, h, htrap, hsi, hr, StepRes.acts]
  · intro htrap hsi hstop
    by_cases hr : env.resume_ok pid = true <;>
      simp [step, handleStopped, h, htrap, hsi, hstop, hr, StepRes.acts]
  · intro htrap hsi hstop
    subst hstop
    simp [step, handleStopped, h, htrap, hsi]

/-- Witness for C4: an `Attached` tracee stopped by `SIGSTOP` with no
signal info available. -/
theorem c4_stopped_attached_witness :
    ((Signal.sigstop = .sigtrap →
      (step ⟨fun _ => true, fun _ => true, fun _ => false⟩ 1
        ⟨⟨[((5 : Pid), .Attached ⟨⟨0⟩, 5, ⟨"/"⟩⟩)], [(⟨0⟩, 5)]⟩, ⟨1, []⟩, none⟩
        (.Stopped 5 .sigstop)).acts = [.resume 5 none]) ∧
     (Signal.sigstop ≠ .sigtrap →
      (fun _ : Pid => false) 5 = true →
      (step ⟨fun _ => true, fun _ => true, fun _ => false⟩ 1
        ⟨⟨[((5 : Pid), .Attached ⟨⟨0⟩, 5, ⟨"/"⟩⟩)], [(⟨0⟩, 5)]⟩, ⟨1, []⟩, none⟩
        (.Stopped 5 .sigstop)).acts = [.getSigInfo 5, .resume 5 none]) ∧
     (Signal.sigstop ≠ .sigtrap →
      (fun _ : Pid => false) 5 = false → Signal.sigstop ≠ .sigstop →
      (step ⟨fun _ => true, fun _ => true, fun _ => false⟩ 1
        ⟨⟨[((5 : Pid), .Attached ⟨⟨0⟩, 5, ⟨"/"⟩⟩)], [(⟨0⟩, 5)]⟩, ⟨1, []⟩, none⟩
        (.Stopped 5 .sigstop)).acts = [.getSigInfo 5, .resume 5 none]) ∧
     (Signal.sigstop ≠ .sigtrap →
      (fun _ : Pid => false) 5 = false → Signal.sigstop = .sigstop →
      step ⟨fun _ => true, fun _ => true, fun _ => false⟩ 1
        ⟨⟨[((5 : Pid), .Attached ⟨⟨0⟩, 5, ⟨"/"⟩⟩)], [(⟨0⟩, 5)]⟩, ⟨1, []⟩, none⟩
        (.Stopped 5 .sigstop) =
        .cont ⟨⟨[((5 : Pid), .Attached ⟨⟨0⟩, 5, ⟨"/"⟩⟩)], [(⟨0⟩, 5)]⟩, ⟨1, []⟩,
          none⟩ [.getSigInfo 5])) :=
  c4_stopped_attached ⟨fun _ => true, fun _ => true, fun _ => false⟩ 1
    ⟨⟨[((5 : Pid), .Attached ⟨⟨0⟩, 5, ⟨"/"⟩⟩)], [(⟨0⟩, 5)]⟩, ⟨1, []⟩, none⟩
    5 .sigstop ⟨⟨0⟩, 5, ⟨"/"⟩⟩ (by decide)

/-- Claim C8: the child branch exits with 125 when `traceme` fails (no
exec is attempted), otherwise stops itself before the exec, and exits with
127 when the exec fails. -/
theorem c8_child_branch (env : ChildEnv) (args : List Bytes) (arg0 : Bytes) :
    (env.traceme_ok = false →
      childRun env args arg0 = ([.traceme], .exited 125)) ∧
    (env.traceme_ok = true → env.kill_ok = true →
      ∃ rest, (childRun env args arg0).1 = .traceme :: .selfStop :: rest) ∧
    (env.traceme_ok = true → env.kill_ok = true → env.exec_ok = false →
      childRun env args arg0 =
        ([.traceme, .selfStop, .execvpCall arg0 args], .exited 127)) := by
  refine ⟨?_, ?_, ?_⟩
  · intro h
    simp [childRun, h]
  · intro h1 h2
    by_cases h3 : env.exec_ok = true
    · exact ⟨[.execvpCall arg0 args], by simp [childRun, h1, h2, h3]⟩
    · simp only [Bool.not_eq_true] at h3
      exact ⟨[.execvpCall arg0 args], by simp [childRun, h1, h2, h3]⟩
  · intro h1 h2 h3
    simp [childRun, h1, h2, h3]

/-- Witness for C8: the failed-exec child. -/
theorem c8_child_branch_witness :
    ((false = false →
       childRun ⟨false, true, false⟩ [[65]] [65] = ([.traceme], .exited 125)) ∧
     (false = true → true = true →
       ∃ rest, (childRun ⟨false, true, false⟩ [[65]] [65]).1 =
         .traceme :: .selfStop :: rest) ∧
     (false = true → true = true → false = false →
       childRun ⟨false, true, false⟩ [[65]] [65] =
         ([.traceme, .selfStop, .execvpCall [65] [[65]]], .exited 127))) ∧
    ((true = false →
       childRun ⟨true, true, false⟩ [[65]] [65] = ([.traceme], .exited 125)) ∧
     (true = true → true = true →
       ∃ rest, (childRun ⟨true, true, false⟩ [[65]] [65]).1 =
         .traceme :: .selfStop :: rest) ∧
     (true = true → true = true → false = false →
       childRun ⟨true, true, false⟩ [[65]] [65] =
         ([.traceme, .selfStop, .execvpCall [65] [[65]]], .exited 127))) :=
  ⟨c8_child_branch ⟨false, true, false⟩ [[65]] [65],
   c8_child_branch ⟨true, true, false⟩ [[65]] [65]⟩

/-- Claim C9: `trace` (method and free function) with an empty command
panics on the `command[0]` indexing: no validation result such as
`InvalidCommand` is returned, `fork` is not reached and no recorder call is
made. -/
theorem c9_empty_command_panics (env : TraceEnv) (dbpath : FsPath) :
    Tracer.trace env [] dbpath = ⟨.panik, [], none, false⟩ ∧
    traceMain env [] dbpath = ⟨.panik, [], none, false⟩ :=
  ⟨rfl, rfl⟩

theorem alookup_ainsert {κ α : Type} [DecidableEq κ] (p k : κ) (v : α)
    (l : List (κ × α)) :
    alookup p (ainsert k v l) =
      if p = k then some v else alookup p l := by
  by_cases h : p = k
  · subst h
    simp [alookup_ainsert_self]
  · simp [h, alookup_ainsert_ne v h]

theorem alookup_aerase {κ α : Type} [DecidableEq κ] (p k : κ)
    (l : List (κ × α)) :
    alookup p (aerase k l) = if p = k then none else alookup p l := by
  by_cases h : p = k
  · subst h
    simp [alookup_aerase_self]
  · simp [h, alookup_aerase_ne h]

/-- `Processes::exit` never propagates a recorder error (the stub recorder
cannot fail). -/
theorem processes_exit_not_err (ps : Processes) (tid : Pid)
    (st : ExitStatus) (db : Database) (e : Error) :
    Processes.exit ps tid st db ≠ .err e := by
  unfold Processes.exit
  match halo : alookup tid ps.pid2process with
  | none => simp
  | some (.Unknown u) => simp
  | some (.Allocated info) => simp [Database.process_exit]
  | some (.Attached info) => simp [Database.process_exit]

/-- On success, `Processes::exit` erases the TID from the TID map. -/
theorem processes_exit_pid2process (ps : Processes) (tid : Pid)
    (st : ExitStatus) (db : Database) (ps1 : Processes) (db1 : Database)
    (h : Processes.exit ps tid st db = .ok (ps1, db1)) :
    ps1.pid2process = aerase tid ps.pid2process := by
  unfold Processes.exit at h
  match halo : alookup tid ps.pid2process with
  | none => simp [halo] at h
  | some (.Unknown u) =>
    simp [halo] at h
    simp [← h.1]
  | some (.Allocated info) =>
    simp [halo, Database.process_exit] at h
    simp [← h.1]
  | some (.Attached info) =>
    simp [halo, Database.process_exit] at h
    simp [← h.1]

/-- On success, `Processes::exit` appends at most one record, and that
record is a `process_exit`. -/
theorem processes_exit_events (ps : Processes) (tid : Pid)
    (st : ExitStatus) (db : Database) (ps1 : Processes) (db1 : Database)
    (h : Processes.exit ps tid st db = .ok (ps1, db1)) :
    ∃ t, db1.events = db.events ++ t ∧ ∀ e ∈ t, e.isExit = true := by
  unfold Processes.exit at h
  match halo : alookup tid ps.pid2process with
  | none => simp [halo] at h
  | some (.Unknown u) =>
    simp [halo] at h
    exact ⟨[], by simp [← h.2], by simp⟩
  | some (.Allocated info) =>
    simp [halo, Database.process_exit] at h
    exact ⟨[.processExit info.identifier st], by simp [← h.2],
      by simp [DbEvent.isExit]⟩
  | some (.Attached info) =>
    simp [halo, Database.process_exit] at h
    exact ⟨[.processExit info.identifier st], by simp [← h.2],
      by simp [DbEvent.isExit]⟩

theorem unknownOrAbsent_ainsert_unknown (tid pid : Pid)
    (l : List (Pid × Thread)) (h : unknownOrAbsent tid l) :
    unknownOrAbsent tid (ainsert pid (.Unknown pid) l) := by
  by_cases hp : tid = pid
  · subst hp
    exact Or.inr ⟨tid, by simp [alookup_ainsert]⟩
  · rcases h with h | ⟨u, h⟩
    · exact Or.inl (by rw [alookup_ainsert]; simp [hp, h])
    · exact Or.inr ⟨u, by rw [alookup_ainsert]; simp [hp, h]⟩

theorem unknownOrAbsent_ainsert_ne (tid pid : Pid) (v : Thread)
    (l : List (Pid × Thread)) (h : unknownOrAbsent tid l) (hne : tid ≠ pid) :
    unknownOrAbsent tid (ainsert pid v l) := by
  rcases h with h | ⟨u, h⟩
  · exact Or.inl (by rw [alookup_ainsert]; simp [hne, h])
  · exact Or.inr ⟨u, by rw [alookup_ainsert]; simp [hne, h]⟩

theorem unknownOrAbsent_aerase (tid pid : Pid) (l : List (Pid × Thread))
    (h : unknownOrAbsent tid l) : unknownOrAbsent tid (aerase pid l) := by
  by_cases hp : tid = pid
  · subst hp
    exact Or.inl (alookup_aerase_self tid l)
  · rcases h with h | ⟨u, h⟩
    · exact Or.inl (by rw [alookup_aerase]; simp [hp, h])
    · exact Or.inr ⟨u, by rw [alookup_aerase]; simp [hp, h]⟩

theorem allUnknown_ainsert_unknown (pid : Pid) (l : List (Pid × Thread))
    (h : allUnknown l) : allUnknown (ainsert pid (.Unknown pid) l) := by
  intro p t hp
  rw [alookup_ainsert] at hp
  by_cases he : p = pid
  · simp [he] at hp
    exact ⟨pid, hp.symm⟩
  · simp [he] at hp
    exact h p t hp

theorem allUnknown_aerase (pid : Pid) (l : List (Pid × Thread))
    (h : allUnknown l) : allUnknown (aerase pid l) := by
  intro p t hp
  rw [alookup_aerase] at hp
  by_cases he : p = pid
  · simp [he] at hp
  · simp [he] at hp
    exact h p t hp

theorem rootOnly_aerase_ne (fp pid : Pid) (info : ThreadInfo)
    (l : List (Pid × Thread)) (h : rootOnly fp info l) (hne : pid ≠ fp) :
    rootOnly fp info (aerase pid l) := by
  constructor
  · have hfp : fp ≠ pid := fun he => hne he.symm
    rcases h.1 with h1 | h1
    · exact Or.inl (by rw [alookup_aerase]; simp [hfp, h1])
    · exact Or.inr (by rw [alookup_aerase]; simp [hfp, h1])
  · intro p t hp hpf
    rw [alookup_aerase] at hp
    by_cases he : p = pid
    · simp [he] at hp
    · simp [he] at hp
      exact h.2 p t hp hpf

theorem rootOnly_ainsert_unknown (fp pid : Pid) (info : ThreadInfo)
    (l : List (Pid × Thread)) (h : rootOnly fp info l)
    (habs : alookup pid l = none) :
    rootOnly fp info (ainsert pid (.Unknown pid) l) := by
  have hne : fp ≠ pid := by
    intro he
    subst he
    rcases h.1 with h1 | h1 <;> rw [h1] at habs <;> exact Option.noConfusion habs
  constructor
  · rcases h.1 with h1 | h1
    · exact Or.inl (by rw [alookup_ainsert]; simp [hne, h1])
    · exact Or.inr (by rw [alookup_ainsert]; simp [hne, h1])
  · intro p t hp hpf
    rw [alookup_ainsert] at hp
    by_cases he : p = pid
    · simp [he] at hp
      exact ⟨pid, hp.symm⟩
    · simp [he] at hp
      exact h.2 p t hp hpf

theorem rootOnly_promote (fp pid : Pid) (info info1 : ThreadInfo)
    (l : List (Pid × Thread)) (h : rootOnly fp info l)
    (halo : alookup pid l = some (.Allocated info1)) :
    rootOnly fp info (ainsert pid (.Attached info1) l) := by
  by_cases hpf : pid = fp
  · subst hpf
    have h1 : info1 = info := by
      rcases h.1 with h1 | h1 <;> rw [h1] at halo
      · exact (Thread.Allocated.injEq _ _).mp (Option.some.inj halo).symm
      · exact absurd (Option.some.inj halo) (by simp)
    subst h1
    constructor
    · exact Or.inr (by rw [alookup_ainsert]; simp)
    · intro p t hp hpf1
      rw [alookup_ainsert] at hp
      simp [hpf1] at hp
      exact h.2 p t hp hpf1
  · exfalso
    obtain ⟨u, hu⟩ := h.2 pid _ halo hpf
    exact Thread.noConfusion hu

theorem allUnknown_of_rootOnly_erase_root (fp : Pid) (info : ThreadInfo)
    (l : List (Pid × Thread)) (h : rootOnly fp info l) :
    allUnknown (aerase fp l) := by
  intro p t hp
  rw [alookup_aerase] at hp
  by_cases he : p = fp
  · simp [he] at hp
  · simp [he] at hp
    exact h.2 p t hp he

theorem exitEvents_append (a b : List DbEvent) :
    exitEvents (a ++ b) = exitEvents a ++ exitEvents b := by
  simp [exitEvents, List.filter_append]

theorem handleStopped_db (env : KernelEnv) (s : LoopState) (pid : Pid)
    (sig : Signal) :
    (handleStopped env s pid sig).state.database = s.database ∧
    (handleStopped env s pid sig).state.first_exit_code = s.first_exit_code := by
  unfold handleStopped
  split <;> split_ifs <;> simp [StepRes.state]

/-- The three possible effects of the `Stopped` handler on the TID map:
insert a fresh `Unknown`, promote an `Allocated` to `Attached`, or leave
the registry untouched. -/
theorem handleStopped_pid2process (env : KernelEnv) (s : LoopState)
    (pid : Pid) (sig : Signal) :
    (alookup pid s.processes.pid2process = none ∧
      (handleStopped env s pid sig).state.processes.pid2process =
        ainsert pid (.Unknown pid) s.processes.pid2process) ∨
    (∃ info, alookup pid s.processes.pid2process = some (.Allocated info) ∧
      (handleStopped env s pid sig).state.processes.pid2process =
        ainsert pid (.Attached info) s.processes.pid2process) ∨
    (handleStopped env s pid sig).state.processes = s.processes := by
  unfold handleStopped
  cases halo : alookup pid s.processes.pid2process with
  | none =>
    left
    refine ⟨rfl, ?_⟩
    split_ifs <;> simp [StepRes.state, Processes.add_unknown]
  | some t =>
    cases t with
    | Allocated info =>
      right; left
      refine ⟨info, rfl, ?_⟩
      split_ifs <;> simp [StepRes.state]
    | Unknown u =>
      right; right
      split_ifs <;> simp [StepRes.state]
    | Attached info =>
      right; right
      split_ifs <;> simp [StepRes.state]

theorem handleStopped_allUnknown (env : KernelEnv) (s : LoopState)
    (pid : Pid) (sig : Signal) (h : allUnknown s.processes.pid2process) :
    allUnknown (handleStopped env s pid sig).state.processes.pid2process := by
  rcases handleStopped_pid2process env s pid sig with
    ⟨_, hform⟩ | ⟨info, halo, _⟩ | hform
  · rw [hform]
    exact allUnknown_ainsert_unknown pid _ h
  · obtain ⟨u, hu⟩ := h pid _ halo
    exact Thread.noConfusion hu
  · rw [hform]
    exact h

theorem handleStopped_rootOnly (env : KernelEnv) (s : LoopState) (pid : Pid)
    (sig : Signal) (fp : Pid) (info : ThreadInfo)
    (h : rootOnly fp info s.processes.pid2process) :
    rootOnly fp info (handleStopped env s pid sig).state.processes.pid2process := by
  rcases handleStopped_pid2process env s pid sig with
    ⟨habs, hform⟩ | ⟨info1, halo, hform⟩ | hform
  · rw [hform]
    exact rootOnly_ainsert_unknown fp pid info _ h habs
  · rw [hform]
    exact rootOnly_promote fp pid info info1 _ h halo
  · rw [hform]
    exact h

/-- When the TID's entry (if any) is `Unknown`, a successful
`Processes::exit` only erases it and leaves the recorder untouched. -/
theorem processes_exit_unknown_entry (ps : Processes) (tid : Pid)
    (st : ExitStatus) (db : Database) (ps1 : Processes) (db1 : Database)
    (hu : ∀ t, alookup tid ps.pid2process = some t → ∃ u, t = .Unknown u)
    (h : Processes.exit ps tid st db = .ok (ps1, db1)) :
    ps1.pid2process = aerase tid ps.pid2process ∧ db1 = db := by
  unfold Processes.exit at h
  cases halo : alookup tid ps.pid2process with
  | none =>
    rw [halo] at h
    exact Res.noConfusion h
  | some t =>
    obtain ⟨u, hthread⟩ := hu t halo
    subst hthread
    rw [halo] at h
    simp at h
    exact ⟨by rw [← h.1], h.2.symm⟩

theorem handleTerm_phaseB (fp pid : Pid) (s : LoopState) (st stB : ExitStatus)
    (rootId : ProcessId) (hne : pid ≠ fp) (hB : phaseB rootId stB s) :
    phaseB rootId stB (handleTerm fp s pid st).state := by
  unfold handleTerm
  cases hex : Processes.exit s.processes pid st s.database with
  | panik =>
    simpa [StepRes.state] using hB
  | err e =>
    exact absurd hex (processes_exit_not_err _ _ _ _ e)
  | ok pr =>
    obtain ⟨ps1, db1⟩ := pr
    obtain ⟨hps, hdb⟩ := processes_exit_unknown_entry _ _ _ _ _ _
      (fun t ht => hB.1 pid t ht) hex
    have hphase : phaseB rootId stB (⟨ps1, db1,
        if pid = fp then some st else s.first_exit_code⟩ : LoopState) := by
      refine ⟨?_, ?_, ?_⟩
      · rw [hps]
        exact allUnknown_aerase pid _ hB.1
      · simp [hne, hB.2.1]
      · rw [hdb]
        exact hB.2.2
    by_cases hemp : ps1.is_empty = true <;> simpa [StepRes.state, hemp]
      using hphase

theorem handleTerm_phaseA (fp pid : Pid) (s : LoopState) (st : ExitStatus)
    (info : ThreadInfo) (hne : pid ≠ fp) (hA : phaseA fp info s) :
    phaseA fp info (handleTerm fp s pid st).state := by
  unfold handleTerm
  cases hex : Processes.exit s.processes pid st s.database with
  | panik =>
    simpa [StepRes.state] using hA
  | err e =>
    exact absurd hex (processes_exit_not_err _ _ _ _ e)
  | ok pr =>
    obtain ⟨ps1, db1⟩ := pr
    obtain ⟨hps, hdb⟩ := processes_exit_unknown_entry _ _ _ _ _ _
      (fun t ht => hA.1.2 pid t ht hne) hex
    have hphase : phaseA fp info (⟨ps1, db1,
        if pid = fp then some st else s.first_exit_code⟩ : LoopState) := by
      refine ⟨?_, ?_, ?_⟩
      · rw [hps]
        exact rootOnly_aerase_ne fp pid info _ hA.1 hne
      · simp [hne, hA.2.1]
      · rw [hdb]
        exact hA.2.2
    by_cases hemp : ps1.is_empty = true <;> simpa [StepRes.state, hemp]
      using hphase

/-- Handling the root's terminal event: the registry drops the root entry
(the rest being `Unknown`), `first_exit_code` is set to the root's status,
and exactly one `process_exit(root, status)` is recorded. -/
theorem handleTerm_root (fp : Pid) (s : LoopState) (st : ExitStatus)
    (info : ThreadInfo) (hA : phaseA fp info s) :
    ∃ s1, (handleTerm fp s fp st = .brk s1 [] ∨
           handleTerm fp s fp st = .cont s1 []) ∧
      phaseB info.identifier st s1 := by
  have hexit : Processes.exit s.processes fp st s.database =
      .ok (⟨aerase fp s.processes.pid2process,
            aerase info.identifier s.processes.identifier2pid⟩,
           { next_process := s.database.next_process,
             events := s.database.events ++
               [.processExit info.identifier st] }) := by
    unfold Processes.exit
    rcases hA.1.1 with h1 | h1 <;> rw [h1] <;> simp [Database.process_exit]
  refine ⟨⟨⟨aerase fp s.processes.pid2process,
            aerase info.identifier s.processes.identifier2pid⟩,
           { next_process := s.database.next_process,
             events := s.database.events ++
               [.processExit info.identifier st] },
           some st⟩, ?_, ?_, rfl, ?_⟩
  · unfold handleTerm
    rw [hexit]
    by_cases hemp : (⟨aerase fp s.processes.pid2process,
        aerase info.identifier s.processes.identifier2pid⟩ :
          Processes).is_empty = true
    · exact Or.inl (by simp [hemp])
    · exact Or.inr (by simp [hemp])
  · exact allUnknown_of_rootOnly_erase_root fp info _ hA.1
  · show exitEvents (s.database.events ++
        [.processExit info.identifier st]) = _
    rw [exitEvents_append, hA.2.2]
    simp [exitEvents, DbEvent.isExit]

/-- The `PtraceEvent`, `PtraceSyscall` and catch-all arms leave the state
untouched. -/
theorem step_other_state (env : KernelEnv) (fp : Pid) (s : LoopState) :
    (∀ pid sig ev, (step env fp s (.PtraceEvent pid sig ev)).state = s) ∧
    (∀ pid, (step env fp s (.PtraceSyscall pid)).state = s) ∧
    (step env fp s .OtherEvt).state = s := by
  refine ⟨fun pid sig ev => ?_, fun pid => ?_, rfl⟩ <;>
    by_cases hr : env.resume_ok pid = true <;> simp [step, hr, StepRes.state]

theorem isRootTerm_exited (fp pid : Pid) (code : Int)
    (h : isRootTerm fp (.Exited pid code) = false) : pid ≠ fp := by
  simpa [isRootTerm, WaitStatus.termStatus] using h

theorem isRootTerm_signaled (fp pid : Pid) (sig : Signal) (cd : Bool)
    (h : isRootTerm fp (.Signaled pid sig cd) = false) : pid ≠ fp := by
  simpa [isRootTerm, WaitStatus.termStatus] using h

theorem step_phaseB (env : KernelEnv) (fp : Pid) (rootId : ProcessId)
    (stB : ExitStatus) (s : LoopState) (w : WaitStatus)
    (hB : phaseB rootId stB s) (hw : isRootTerm fp w = false) :
    phaseB rootId stB (step env fp s w).state := by
  cases w with
  | Exited pid code =>
    exact handleTerm_phaseB fp pid s (.Return code) stB rootId
      (isRootTerm_exited fp pid code hw) hB
  | Signaled pid sig cd =>
    exact handleTerm_phaseB fp pid s (.Signal sig) stB rootId
      (isRootTerm_signaled fp pid sig cd hw) hB
  | Stopped pid sig =>
    have heq : step env fp s (.Stopped pid sig) = handleStopped env s pid sig :=
      rfl
    rw [heq]
    exact ⟨handleStopped_allUnknown env s pid sig hB.1,
      by rw [(handleStopped_db env s pid sig).2]; exact hB.2.1,
      by rw [(handleStopped_db env s pid sig).1]; exact hB.2.2⟩
  | PtraceEvent pid sig ev =>
    rw [(step_other_state env fp s).1 pid sig ev]
    exact hB
  | PtraceSyscall pid =>
    rw [(step_other_state env fp s).2.1 pid]
    exact hB
  | OtherEvt =>
    rw [(step_other_state env fp s).2.2]
    exact hB

theorem step_phaseA (env : KernelEnv) (fp : Pid) (info : ThreadInfo)
    (s : LoopState) (w : WaitStatus) (hA : phaseA fp info s)
    (hw : isRootTerm fp w = false) :
    phaseA fp info (step env fp s w).state := by
  cases w with
  | Exited pid code =>
    exact handleTerm_phaseA fp pid s (.Return code) info
      (isRootTerm_exited fp pid code hw) hA
  | Signaled pid sig cd =>
    exact handleTerm_phaseA fp pid s (.Signal sig) info
      (isRootTerm_signaled fp pid sig cd hw) hA
  | Stopped pid sig =>
    have heq : step env fp s (.Stopped pid sig) = handleStopped env s pid sig :=
      rfl
    rw [heq]
    exact ⟨handleStopped_rootOnly env s pid sig fp info hA.1,
      by rw [(handleStopped_db env s pid sig).2]; exact hA.2.1,
      by rw [(handleStopped_db env s pid sig).1]; exact hA.2.2⟩
  | PtraceEvent pid sig ev =>
    rw [(step_other_state env fp s).1 pid sig ev]
    exact hA
  | PtraceSyscall pid =>
    rw [(step_other_state env fp s).2.1 pid]
    exact hA
  | OtherEvt =>
    rw [(step_other_state env fp s).2.2]
    exact hA

theorem loopGo_phaseB (env : KernelEnv) (fp : Pid) (rootId : ProcessId)
    (stB : ExitStatus) :
    ∀ (ws : List WaitStatus) (s : LoopState), phaseB rootId stB s →
      countRootTerm fp ws = 0 →
      ∀ status final, loopGo env fp s ws = (.ok status, final) →
        status = stB ∧
        exitEvents final.database.events = [.processExit rootId stB] := by
  intro ws
  induction ws with
  | nil =>
    intro s hB hc status final h
    simp [loopGo] at h
  | cons w ws ih =>
    intro s hB hc status final h
    have hw : isRootTerm fp w = false := by
      by_cases hrw : isRootTerm fp w = true
      · exfalso
        simp [countRootTerm, List.filter_cons, hrw] at hc
      · simpa using hrw
    have hc1 : countRootTerm fp ws = 0 := by
      simpa [countRootTerm, List.filter_cons, hw] using hc
    rw [loopGo] at h
    cases hstep : step env fp s w with
    | cont s1 a =>
      rw [hstep] at h
      have hB1 := step_phaseB env fp rootId stB s w hB hw
      rw [hstep] at hB1
      simp only [StepRes.state] at hB1
      exact ih s1 hB1 hc1 status final h
    | brk s1 a =>
      rw [hstep] at h
      have hB1 := step_phaseB env fp rootId stB s w hB hw
      rw [hstep] at hB1
      simp only [StepRes.state] at hB1
      simp [hB1.2.1] at h
      exact ⟨h.1.symm, by rw [← h.2]; exact hB1.2.2⟩
    | err s1 e a =>
      rw [hstep] at h
      simp at h
    | panik s1 a =>
      rw [hstep] at h
      simp at h

/-- Core correctness of the event loop: starting in phase A (root
registered, no exit recorded), with at most one root terminal event in the
stream, a successful loop returns the status carried by the root's terminal
event and the recorder holds exactly one `process_exit`, for the root, with
that status. -/
theorem loopGo_phaseA (env : KernelEnv) (fp : Pid) (info : ThreadInfo) :
    ∀ (ws : List WaitStatus) (s : LoopState), phaseA fp info s →
      countRootTerm fp ws ≤ 1 →
      ∀ status final, loopGo env fp s ws = (.ok status, final) →
        exitEvents final.database.events =
          [.processExit info.identifier status] ∧
        ∃ w ∈ ws, w.termStatus = some (fp, status) := by
  intro ws
  induction ws with
  | nil =>
    intro s hA hc status final h
    simp [loopGo] at h
  | cons w ws ih =>
    intro s hA hc status final h
    rw [loopGo] at h
    by_cases hrw : isRootTerm fp w = true
    · have hc1 : countRootTerm fp ws = 0 := by
        simp [countRootTerm, List.filter_cons, hrw] at hc
        simp [countRootTerm]
        exact hc
      cases w with
      | Exited pid code =>
        have hpid : pid = fp := by
          simpa [isRootTerm, WaitStatus.termStatus] using hrw
        subst hpid
        obtain ⟨s1, hor, hB1⟩ := handleTerm_root pid s (.Return code) info hA
        have heq : step env pid s (.Exited pid code) =
            handleTerm pid s pid (.Return code) := rfl
        rw [heq] at h
        rcases hor with hb | hcnt
        · rw [hb] at h
          simp [hB1.2.1] at h
          refine ⟨?_, .Exited pid code, List.mem_cons_self _ _, ?_⟩
          · rw [← h.2, ← h.1]
            exact hB1.2.2
          · simp [WaitStatus.termStatus, h.1]
        · rw [hcnt] at h
          obtain ⟨hstat, hev⟩ := loopGo_phaseB env pid info.identifier
            (.Return code) ws s1 hB1 hc1 status final h
          refine ⟨?_, .Exited pid code, List.mem_cons_self _ _, ?_⟩
          · rw [hstat]
            exact hev
          · simp [WaitStatus.termStatus, hstat]
      | Signaled pid sig cd =>
        have hpid : pid = fp := by
          simpa [isRootTerm, WaitStatus.termStatus] using hrw
        subst hpid
        obtain ⟨s1, hor, hB1⟩ := handleTerm_root pid s (.Signal sig) info hA
        have heq : step env pid s (.Signaled pid sig cd) =
            handleTerm pid s pid (.Signal sig) := rfl
        rw [heq] at h
        rcases hor with hb | hcnt
        · rw [hb] at h
          simp [hB1.2.1] at h
          refine ⟨?_, .Signaled pid sig cd, List.mem_cons_self _ _, ?_⟩
          · rw [← h.2, ← h.1]
            exact hB1.2.2
          · simp [WaitStatus.termStatus, h.1]
        · rw [hcnt] at h
          obtain ⟨hstat, hev⟩ := loopGo_phaseB env pid info.identifier
            (.Signal sig) ws s1 hB1 hc1 status final h
          refine ⟨?_, .Signaled pid sig cd, List.mem_cons_self _ _, ?_⟩
          · rw [hstat]
            exact hev
          · simp [WaitStatus.termStatus, hstat]
      | Stopped pid sig => simp [isRootTerm, WaitStatus.termStatus] at hrw
      | PtraceEvent pid sig ev =>
        simp [isRootTerm, WaitStatus.termStatus] at hrw
      | PtraceSyscall pid => simp [isRootTerm, WaitStatus.termStatus] at hrw
      | OtherEvt => simp [isRootTerm, WaitStatus.termStatus] at hrw
    · have hw : isRootTerm fp w = false := by simpa using hrw
      have hc1 : countRootTerm fp ws ≤ 1 := by
        simp [countRootTerm, List.filter_cons, hw] at hc
        simpa only [countRootTerm] using hc
      cases hstep : step env fp s w with
      | cont s1 a =>
        rw [hstep] at h
        have hA1 := step_phaseA env fp info s w hA hw
        rw [hstep] at hA1
        simp only [StepRes.state] at hA1
        obtain ⟨h1, wx, hwx, hts⟩ := ih s1 hA1 hc1 status final h
        exact ⟨h1, wx, List.mem_cons_of_mem w hwx, hts⟩
      | brk s1 a =>
        rw [hstep] at h
        have hA1 := step_phaseA env fp info s w hA hw
        rw [hstep] at hA1
        simp only [StepRes.state] at hA1
        simp [hA1.2.1] at h
      | err s1 e a =>
        rw [hstep] at h
        simp at h
      | panik s1 a =>
        rw [hstep] at h
        simp at h

theorem handleTerm_events (fp : Pid) (s : LoopState) (pid : Pid)
    (st : ExitStatus) :
    ∃ t, (handleTerm fp s pid st).state.database.events =
        s.database.events ++ t ∧ ∀ e ∈ t, e.isExit = true := by
  unfold handleTerm
  cases hex : Processes.exit s.processes pid st s.database with
  | panik => exact ⟨[], by simp [StepRes.state], by simp⟩
  | err e => exact ⟨[], by simp [StepRes.state], by simp⟩
  | ok pr =>
    obtain ⟨ps1, db1⟩ := pr
    obtain ⟨t, ht, hall⟩ := processes_exit_events _ _ _ _ _ _ hex
    by_cases hemp : ps1.is_empty = true
    · exact ⟨t, by simp [StepRes.state, hemp, ht], hall⟩
    · exact ⟨t, by simp [StepRes.state, hemp, ht], hall⟩

/-- Every recorder record appended while handling one event is a
`process_exit`. -/
theorem step_events (env : KernelEnv) (fp : Pid) (s : LoopState)
    (w : WaitStatus) :
    ∃ t, (step env fp s w).state.database.events = s.database.events ++ t ∧
      ∀ e ∈ t, e.isExit = true := by
  cases w with
  | Exited pid code => exact handleTerm_events fp s pid (.Return code)
  | Signaled pid sig cd => exact handleTerm_events fp s pid (.Signal sig)
  | Stopped pid sig =>
    have heq : step env fp s (.Stopped pid sig) = handleStopped env s pid sig :=
      rfl
    rw [heq, (handleStopped_db env s pid sig).1]
    exact ⟨[], by simp, by simp⟩
  | PtraceEvent pid sig ev =>
    rw [(step_other_state env fp s).1 pid sig ev]
    exact ⟨[], by simp, by simp⟩
  | PtraceSyscall pid =>
    rw [(step_other_state env fp s).2.1 pid]
    exact ⟨[], by simp, by simp⟩
  | OtherEvt => exact ⟨[], by simp [step, StepRes.state], by simp⟩

/-- Every recorder record appended during the whole event loop is a
`process_exit`. -/
theorem loopGo_events (env : KernelEnv) (fp : Pid) :
    ∀ (ws : List WaitStatus) (s : LoopState),
      ∃ t, (loopGo env fp s ws).2.database.events = s.database.events ++ t ∧
        ∀ e ∈ t, e.isExit = true := by
  intro ws
  induction ws with
  | nil =>
    intro s
    exact ⟨[], by simp [loopGo], by simp⟩
  | cons w ws ih =>
    intro s
    obtain ⟨t0, ht0, hall0⟩ := step_events env fp s w
    cases hstep : step env fp s w with
    | cont s1 a =>
      rw [hstep] at ht0
      simp only [StepRes.state] at ht0
      obtain ⟨t1, ht1, hall1⟩ := ih s1
      refine ⟨t0 ++ t1, ?_, ?_⟩
      · rw [loopGo, hstep, ht1, ht0, List.append_assoc]
      · intro e he
        rcases List.mem_append.mp he with he | he
        · exact hall0 e he
        · exact hall1 e he
    | brk s1 a =>
      rw [hstep] at ht0
      simp only [StepRes.state] at ht0
      cases hfec : s1.first_exit_code with
      | some st =>
        refine ⟨t0, ?_, hall0⟩
        rw [loopGo, hstep]
        simp [hfec, ht0]
      | none =>
        refine ⟨t0, ?_, hall0⟩
        rw [loopGo, hstep]
        simp [hfec, ht0]
    | err s1 e a =>
      rw [hstep] at ht0
      simp only [StepRes.state] at ht0
      refine ⟨t0, ?_, hall0⟩
      rw [loopGo, hstep]
      exact ht0
    | panik s1 a =>
      rw [hstep] at ht0
      simp only [StepRes.state] at ht0
      refine ⟨t0, ?_, hall0⟩
      rw [loopGo, hstep]
      exact ht0

/-- Once a TID is held only as `Unknown` (or not at all), one loop step
keeps it that way: the `Stopped` handler never promotes an `Unknown`
entry, and terminal events only erase entries. -/
theorem step_unknown (env : KernelEnv) (fp : Pid) (s : LoopState)
    (w : WaitStatus) (tid : Pid)
    (h : unknownOrAbsent tid s.processes.pid2process) :
    unknownOrAbsent tid (step env fp s w).state.processes.pid2process := by
  cases w with
  | Exited pid code =>
    have heq : step env fp s (.Exited pid code) =
        handleTerm fp s pid (.Return code) := rfl
    rw [heq]
    unfold handleTerm
    cases hex : Processes.exit s.processes pid (.Return code) s.database with
    | panik => simpa [StepRes.state] using h
    | err e => simpa [StepRes.state] using h
    | ok pr =>
      obtain ⟨ps1, db1⟩ := pr
      have hps := processes_exit_pid2process _ _ _ _ _ _ hex
      by_cases hemp : ps1.is_empty = true <;>
        simp only [StepRes.state, hemp, if_pos, if_neg, Bool.false_eq_true,
          not_false_eq_true] <;>
        rw [hps] <;> exact unknownOrAbsent_aerase tid pid _ h
  | Signaled pid sig cd =>
    have heq : step env fp s (.Signaled pid sig cd) =
        handleTerm fp s pid (.Signal sig) := rfl
    rw [heq]
    unfold handleTerm
    cases hex : Processes.exit s.processes pid (.Signal sig) s.database with
    | panik => simpa [StepRes.state] using h
    | err e => simpa [StepRes.state] using h
    | ok pr =>
      obtain ⟨ps1, db1⟩ := pr
      have hps := processes_exit_pid2process _ _ _ _ _ _ hex
      by_cases hemp : ps1.is_empty = true <;>
        simp only [StepRes.state, hemp, if_pos, if_neg, Bool.false_eq_true,
          not_false_eq_true] <;>
        rw [hps] <;> exact unknownOrAbsent_aerase tid pid _ h
  | Stopped pid sig =>
    have heq : step env fp s (.Stopped pid sig) = handleStopped env s pid sig :=
      rfl
    rw [heq]
    rcases handleStopped_pid2process env s pid sig with
      ⟨_, hform⟩ | ⟨info, halo, hform⟩ | hform
    · rw [hform]
      exact unknownOrAbsent_ainsert_unknown tid pid _ h
    · rw [hform]
      have hne : tid ≠ pid := by
        intro he
        subst he
        rcases h with h | ⟨u, h⟩ <;> rw [h] at halo
        · exact Option.noConfusion halo
        · exact Thread.noConfusion (Option.some.inj halo)
      exact unknownOrAbsent_ainsert_ne tid pid _ _ h hne
    · rw [hform]
      exact h
  | PtraceEvent pid sig ev =>
    rw [(step_other_state env fp s).1 pid sig ev]
    exact h
  | PtraceSyscall pid =>
    rw [(step_other_state env fp s).2.1 pid]
    exact h
  | OtherEvt =>
    rw [(step_other_state env fp s).2.2]
    exact h

/-- `Unknown`-only TIDs stay `Unknown`-only across the whole loop. -/
theorem loopGo_unknown (env : KernelEnv) (fp : Pid) :
    ∀ (ws : List WaitStatus) (s : LoopState) (tid : Pid),
      unknownOrAbsent tid s.processes.pid2process →
      unknownOrAbsent tid (loopGo env fp s ws).2.processes.pid2process := by
  intro ws
  induction ws with
  | nil =>
    intro s tid h
    simpa [loopGo] using h
  | cons w ws ih =>
    intro s tid h
    have h1 := step_unknown env fp s w tid h
    cases hstep : step env fp s w with
    | cont s1 a =>
      rw [hstep] at h1
      simp only [StepRes.state] at h1
      rw [loopGo, hstep]
      exact ih s1 tid h1
    | brk s1 a =>
      rw [hstep] at h1
      simp only [StepRes.state] at h1
      rw [loopGo, hstep]
      cases hfec : s1.first_exit_code <;> simpa [hfec] using h1
    | err s1 e a =>
      rw [hstep] at h1
      simp only [StepRes.state] at h1
      rw [loopGo, hstep]
      exact h1
    | panik s1 a =>
      rw [hstep] at h1
      simp only [StepRes.state] at h1
      rw [loopGo, hstep]
      exact h1

/-- Every error the loop propagates is `Internal` (never
`InvalidCommand`). -/
theorem step_err_internal (env : KernelEnv) (fp : Pid) (s : LoopState)
    (w : WaitStatus) (s1 : LoopState) (e : Error) (a : List PtraceAction)
    (h : step env fp s w = .err s1 e a) : ∃ m, e = .Internal m := by
  cases w with
  | Exited pid code =>
    have heq : step env fp s (.Exited pid code) =
        handleTerm fp s pid (.Return code) := rfl
    rw [heq] at h
    unfold handleTerm at h
    cases hex : Processes.exit s.processes pid (.Return code) s.database with
    | panik => rw [hex] at h; exact StepRes.noConfusion h
    | err e1 => exact absurd hex (processes_exit_not_err _ _ _ _ e1)
    | ok pr =>
      obtain ⟨ps1, db1⟩ := pr
      rw [hex] at h
      by_cases hemp : ps1.is_empty = true <;> simp [hemp] at h
  | Signaled pid sig cd =>
    have heq : step env fp s (.Signaled pid sig cd) =
        handleTerm fp s pid (.Signal sig) := rfl
    rw [heq] at h
    unfold handleTerm at h
    cases hex : Processes.exit s.processes pid (.Signal sig) s.database with
    | panik => rw [hex] at h; exact StepRes.noConfusion h
    | err e1 => exact absurd hex (processes_exit_not_err _ _ _ _ e1)
    | ok pr =>
      obtain ⟨ps1, db1⟩ := pr
      rw [hex] at h
      by_cases hemp : ps1.is_empty = true <;> simp [hemp] at h
  | Stopped pid sig =>
    have heq : step env fp s (.Stopped pid sig) = handleStopped env s pid sig :=
      rfl
    rw [heq] at h
    unfold handleStopped at h
    revert h
    split <;> split_ifs <;> intro h <;> cases h <;> exact ⟨_, rfl⟩
  | PtraceEvent pid sig ev =>
    by_cases hr : env.resume_ok pid = true <;> simp [step, hr] at h
    · exact ⟨_, h.2.1.symm⟩
  | PtraceSyscall pid =>
    by_cases hr : env.resume_ok pid = true <;> simp [step, hr] at h
    · exact ⟨_, h.2.1.symm⟩
  | OtherEvt => exact StepRes.noConfusion h

theorem loopGo_err_internal (env : KernelEnv) (fp : Pid) :
    ∀ (ws : List WaitStatus) (s : LoopState) (e : Error) (final : LoopState),
      loopGo env fp s ws = (.err e, final) → ∃ m, e = .Internal m := by
  intro ws
  induction ws with
  | nil =>
    intro s e final h
    simp [loopGo] at h
  | cons w ws ih =>
    intro s e final h
    rw [loopGo] at h
    cases hstep : step env fp s w with
    | cont s1 a =>
      rw [hstep] at h
      exact ih s1 e final h
    | brk s1 a =>
      rw [hstep] at h
      cases hfec : s1.first_exit_code <;> simp [hfec] at h
    | err s1 e1 a =>
      rw [hstep] at h
      simp at h
      exact h.1 ▸ step_err_internal env fp s w s1 e1 a hstep
    | panik s1 a =>
      rw [hstep] at h
      simp at h

/-- Shape of a validated, forked `trace_arg0` run: the outcome is the event
loop's outcome over the post-`add_first` initial state, with a `commit`
appended on success. -/
theorem trace_arg0_forked_eq (env : TraceEnv) (command : List Bytes)
    (arg0 : Bytes) (dbpath : FsPath) (args : List Bytes) (a0 : Bytes)
    (hca : cstringAll command = some args) (hc0 : cstringNew arg0 = some a0)
    (hfork : env.fork_ok = true) :
    ∃ res s1,
      loopGo env.kernel env.child
        ⟨⟨[(env.child, .Allocated ⟨⟨0⟩, env.child, ⟨env.cwd⟩⟩)],
          [((⟨0⟩ : ProcessId), env.child)]⟩,
         ⟨1 % 2 ^ 32,
          [.addProcess none env.cwd false ⟨0⟩,
           .addFileOpen ⟨0⟩ env.cwd FileOp.WDIR true]⟩,
         none⟩ env.events = (res, s1) ∧
      Tracer.trace_arg0 env command arg0 dbpath =
        match res with
        | .ok ret =>
            ⟨.ok ret, s1.database.events ++ [.commitMark], some ⟨0⟩, true⟩
        | .err e => ⟨.err e, s1.database.events, some ⟨0⟩, true⟩
        | .panik => ⟨.panik, s1.database.events, some ⟨0⟩, true⟩
        | .stuck => ⟨.stuck, s1.database.events, some ⟨0⟩, true⟩ := by
  cases hloop : loopGo env.kernel env.child
      ⟨⟨[(env.child, .Allocated ⟨⟨0⟩, env.child, ⟨env.cwd⟩⟩)],
        [((⟨0⟩ : ProcessId), env.child)]⟩,
       ⟨1 % 2 ^ 32,
        [.addProcess none env.cwd false ⟨0⟩,
         .addFileOpen ⟨0⟩ env.cwd FileOp.WDIR true]⟩,
       none⟩ env.events with
  | mk res s1 =>
  refine ⟨res, s1, rfl, ?_⟩
  unfold Tracer.trace_arg0
  rw [hca, hc0, hfork]
  dsimp only []
  rw [show Processes.new.add_first env.child ⟨env.cwd⟩ (Database.new dbpath) =
      .ok (⟨0⟩, ⟨[(env.child, .Allocated ⟨⟨0⟩, env.child, ⟨env.cwd⟩⟩)],
                 [((⟨0⟩ : ProcessId), env.child)]⟩,
           ⟨1 % 2 ^ 32, [.addProcess none env.cwd false ⟨0⟩]⟩) from rfl]
  dsimp only []
  rw [show Database.add_file_open
      ⟨1 % 2 ^ 32, [.addProcess none env.cwd false ⟨0⟩]⟩ ⟨0⟩ env.cwd
      FileOp.WDIR true =
      .ok ⟨1 % 2 ^ 32,
        [.addProcess none env.cwd false ⟨0⟩,
         .addFileOpen ⟨0⟩ env.cwd FileOp.WDIR true]⟩ from rfl]
  dsimp only []
  rw [hloop]
  cases res <;> simp [Database.commit]

/-- Claim C1: if `trace_arg0` returns `Ok(st)` (and the kernel delivers at
most one terminal event for the root TID, as a real kernel does for one
process incarnation), then `st` is the status carried by the root's
terminal event, and the recorder holds exactly one `process_exit` — for the
root's `ProcessId`, with that same status — regardless of the order in
which descendant tracees terminate. -/
theorem c1_root_status (env : TraceEnv) (command : List Bytes) (arg0 : Bytes)
    (dbpath : FsPath) (st : ExitStatus)
    (hcount : countRootTerm env.child env.events ≤ 1)
    (hok : (Tracer.trace_arg0 env command arg0 dbpath).result = .ok st) :
    (∃ w ∈ env.events, w.termStatus = some (env.child, st)) ∧
    ∃ rid, (Tracer.trace_arg0 env command arg0 dbpath).rootId = some rid ∧
      exitEvents (Tracer.trace_arg0 env command arg0 dbpath).dbEvents =
        [.processExit rid st] := by
  cases hca : cstringAll command with
  | none =>
    unfold Tracer.trace_arg0 at hok
    rw [hca] at hok
    simp at hok
  | some args =>
  cases hc0 : cstringNew arg0 with
  | none =>
    unfold Tracer.trace_arg0 at hok
    rw [hca, hc0] at hok
    simp at hok
  | some a0 =>
  by_cases hfork : env.fork_ok = true
  · obtain ⟨res, s1, hloop, heq⟩ :=
      trace_arg0_forked_eq env command arg0 dbpath args a0 hca hc0 hfork
    rw [heq] at hok ⊢
    cases res with
    | ok ret =>
      simp at hok
      rw [hok] at hloop
      have hA0 : phaseA env.child ⟨⟨0⟩, env.child, ⟨env.cwd⟩⟩
          ⟨⟨[(env.child, .Allocated ⟨⟨0⟩, env.child, ⟨env.cwd⟩⟩)],
            [((⟨0⟩ : ProcessId), env.child)]⟩,
           ⟨1 % 2 ^ 32,
            [.addProcess none env.cwd false ⟨0⟩,
             .addFileOpen ⟨0⟩ env.cwd FileOp.WDIR true]⟩,
           none⟩ := by
        refine ⟨⟨Or.inl ?_, ?_⟩, rfl, ?_⟩
        · simp [alookup]
        · intro p t hp hne
          simp [alookup, hne] at hp
        · simp [exitEvents, DbEvent.isExit]
      obtain ⟨hex, hev⟩ := loopGo_phaseA env.kernel env.child
        ⟨⟨0⟩, env.child, ⟨env.cwd⟩⟩ env.events _ hA0 hcount st s1 hloop
      refine ⟨hev, ⟨0⟩, rfl, ?_⟩
      show exitEvents (s1.database.events ++ [.commitMark]) = _
      rw [exitEvents_append, hex]
      simp [exitEvents, DbEvent.isExit]
    | err e => simp at hok
    | panik => simp at hok
    | stuck => simp at hok
  · unfold Tracer.trace_arg0 at hok
    rw [hca, hc0] at hok
    simp [hfork] at hok

/-- Witness for C1: a single tracee that exits 0. -/
theorem c1_root_status_witness :
    countRootTerm (100 : Pid) [.Exited 100 0] ≤ 1 ∧
    ((Tracer.trace_arg0
        ⟨true, 100, "/wd", [.Exited 100 0],
         ⟨fun _ => true, fun _ => true, fun _ => true⟩⟩
        [[65]] [65] "db").result = .ok (.Return 0)) ∧
    ((∃ w ∈ [WaitStatus.Exited 100 0],
        w.termStatus = some ((100 : Pid), ExitStatus.Return 0)) ∧
     ∃ rid, (Tracer.trace_arg0
        ⟨true, 100, "/wd", [.Exited 100 0],
         ⟨fun _ => true, fun _ => true, fun _ => true⟩⟩
        [[65]] [65] "db").rootId = some rid ∧
      exitEvents (Tracer.trace_arg0
        ⟨true, 100, "/wd", [.Exited 100 0],
         ⟨fun _ => true, fun _ => true, fun _ => true⟩⟩
        [[65]] [65] "db").dbEvents = [.processExit rid (.Return 0)]) :=
  ⟨by decide, by rfl,
   c1_root_status
     ⟨true, 100, "/wd", [.Exited 100 0],
      ⟨fun _ => true, fun _ => true, fun _ => true⟩⟩
     [[65]] [65] "db" (.Return 0) (by decide) (by rfl)⟩

theorem cstringNew_none_iff (s : Bytes) :
    cstringNew s = none ↔ (0 : Nat) ∈ s := by
  by_cases h : (0 : Nat) ∈ s <;> simp [cstringNew, h]

theorem cstringAll_none_iff (l : List Bytes) :
    cstringAll l = none ↔ ∃ c ∈ l, (0 : Nat) ∈ c := by
  induction l with
  | nil => simp [cstringAll]
  | cons c t ih =>
    by_cases hc : (0 : Nat) ∈ c
    · simp [cstringAll, cstringNew, hc]
    · simp only [cstringAll, cstringNew, if_neg hc]
      cases hct : cstringAll t with
      | none =>
        simp only [true_iff]
        obtain ⟨x, hx, h0⟩ := ih.mp hct
        exact ⟨x, List.mem_cons_of_mem c hx, h0⟩
      | some t1 =>
        constructor
        · intro h
          exact Option.noConfusion h
        · rintro ⟨x, hx, h0⟩
          exfalso
          rcases List.mem_cons.mp hx with hx | hx
          · exact hc (hx ▸ h0)
          · have h2 := ih.mpr ⟨x, hx, h0⟩
            rw [hct] at h2
            exact Option.noConfusion h2

/-- Claim C2: `trace_arg0` fails with `InvalidCommand` exactly when some
argv element or the `argv[0]` override contains a null byte, and in that
case no recorder call has been made and `fork` has not been reached. -/
theorem c2_null_byte (env : TraceEnv) (command : List Bytes) (arg0 : Bytes)
    (dbpath : FsPath) :
    ((Tracer.trace_arg0 env command arg0 dbpath).result =
        .err .InvalidCommand ↔
      (∃ c ∈ command, (0 : Nat) ∈ c) ∨ (0 : Nat) ∈ arg0) ∧
    (((∃ c ∈ command, (0 : Nat) ∈ c) ∨ (0 : Nat) ∈ arg0) →
      (Tracer.trace_arg0 env command arg0 dbpath).dbEvents = [] ∧
      (Tracer.trace_arg0 env command arg0 dbpath).forked = false) := by
  cases hca : cstringAll command with
  | none =>
    have hnull : ∃ c ∈ command, (0 : Nat) ∈ c := (cstringAll_none_iff _).mp hca
    constructor
    · unfold Tracer.trace_arg0
      rw [hca]
      simpa using Or.inl hnull
    · intro _
      unfold Tracer.trace_arg0
      rw [hca]
      exact ⟨rfl, rfl⟩
  | some args =>
  have hcmd : ¬∃ c ∈ command, (0 : Nat) ∈ c := by
    intro hex
    have := (cstringAll_none_iff command).mpr hex
    rw [hca] at this
    exact Option.noConfusion this
  cases hc0 : cstringNew arg0 with
  | none =>
    have hnull : (0 : Nat) ∈ arg0 := (cstringNew_none_iff _).mp hc0
    constructor
    · unfold Tracer.trace_arg0
      rw [hca, hc0]
      simpa using Or.inr hnull
    · intro _
      unfold Tracer.trace_arg0
      rw [hca, hc0]
      exact ⟨rfl, rfl⟩
  | some a0 =>
  have harg : ¬(0 : Nat) ∈ arg0 := by
    intro h0
    have := (cstringNew_none_iff arg0).mpr h0
    rw [hc0] at this
    exact Option.noConfusion this
  have hno : ¬((∃ c ∈ command, (0 : Nat) ∈ c) ∨ (0 : Nat) ∈ arg0) := by
    rintro (h | h)
    · exact hcmd h
    · exact harg h
  refine ⟨⟨fun hres => ?_, fun h => absurd h hno⟩, fun h => absurd h hno⟩
  exfalso
  by_cases hfork : env.fork_ok = true
  · obtain ⟨res, s1, hloop, heq⟩ :=
      trace_arg0_forked_eq env command arg0 dbpath args a0 hca hc0 hfork
    rw [heq] at hres
    cases res with
    | ok ret => simp at hres
    | err e =>
      simp at hres
      obtain ⟨m, hm⟩ := loopGo_err_internal env.kernel env.child env.events
        _ e s1 hloop
      rw [hm] at hres
      exact Error.noConfusion hres
    | panik => simp at hres
    | stuck => simp at hres
  · unfold Tracer.trace_arg0 at hres
    rw [hca, hc0] at hres
    simp [hfork] at hres

/-- Witness for C2: a command whose only element contains a null byte. -/
theorem c2_null_byte_witness :
    ((Tracer.trace_arg0
        ⟨true, 100, "/wd", [],
         ⟨fun _ => true, fun _ => true, fun _ => true⟩⟩
        [[0, 65]] [65] "db").result = .err .InvalidCommand ↔
      (∃ c ∈ [[(0 : Nat), 65]], (0 : Nat) ∈ c) ∨ (0 : Nat) ∈ [(65 : Nat)]) ∧
    ((Tracer.trace_arg0
        ⟨true, 100, "/wd", [],
         ⟨fun _ => true, fun _ => true, fun _ => true⟩⟩
        [[0, 65]] [65] "db").dbEvents = [] ∧
     (Tracer.trace_arg0
        ⟨true, 100, "/wd", [],
         ⟨fun _ => true, fun _ => true, fun _ => true⟩⟩
        [[0, 65]] [65] "db").forked = false) :=
  ⟨(c2_null_byte ⟨true, 100, "/wd", [],
      ⟨fun _ => true, fun _ => true, fun _ => true⟩⟩ [[0, 65]] [65] "db").1,
   (c2_null_byte ⟨true, 100, "/wd", [],
      ⟨fun _ => true, fun _ => true, fun _ => true⟩⟩ [[0, 65]] [65] "db").2
     (Or.inl ⟨[0, 65], by simp, by simp⟩)⟩

theorem commitCount_append (a b : List DbEvent) :
    commitCount (a ++ b) = commitCount a + commitCount b := by
  simp [commitCount, List.filter_append]

theorem commitCount_of_exits (t : List DbEvent)
    (h : ∀ e ∈ t, e.isExit = true) : commitCount t = 0 := by
  simp only [commitCount, List.length_eq_zero, List.filter_eq_nil]
  intro e he
  have h1 := h e he
  cases e <;> simp_all [DbEvent.isExit, DbEvent.isCommit]

/-- The recorder log of any run is either empty (failure before the
registry was touched) or the two registration records followed by
`process_exit` records and possibly a final `commit`; a forked run's root
identifier is `0`. -/
theorem trace_arg0_events_shape (env : TraceEnv) (command : List Bytes)
    (arg0 : Bytes) (dbpath : FsPath) :
    (Tracer.trace_arg0 env command arg0 dbpath).dbEvents = [] ∨
    ∃ t c, (∀ e ∈ t, e.isExit = true) ∧ (c = [] ∨ c = [.commitMark]) ∧
      (Tracer.trace_arg0 env command arg0 dbpath).dbEvents =
        [.addProcess none env.cwd false ⟨0⟩,
         .addFileOpen ⟨0⟩ env.cwd FileOp.WDIR true] ++ t ++ c ∧
      (Tracer.trace_arg0 env command arg0 dbpath).rootId = some ⟨0⟩ := by
  cases hca : cstringAll command with
  | none =>
    left
    unfold Tracer.trace_arg0
    rw [hca]
  | some args =>
  cases hc0 : cstringNew arg0 with
  | none =>
    left
    unfold Tracer.trace_arg0
    rw [hca, hc0]
  | some a0 =>
  by_cases hfork : env.fork_ok = true
  · obtain ⟨res, s1, hloop, heq⟩ :=
      trace_arg0_forked_eq env command arg0 dbpath args a0 hca hc0 hfork
    obtain ⟨t, ht, hall⟩ := loopGo_events env.kernel env.child env.events
      ⟨⟨[(env.child, .Allocated ⟨⟨0⟩, env.child, ⟨env.cwd⟩⟩)],
        [((⟨0⟩ : ProcessId), env.child)]⟩,
       ⟨1 % 2 ^ 32,
        [.addProcess none env.cwd false ⟨0⟩,
         .addFileOpen ⟨0⟩ env.cwd FileOp.WDIR true]⟩,
       none⟩
    rw [hloop] at ht
    simp only [] at ht
    right
    rw [heq]
    cases res with
    | ok ret =>
      exact ⟨t, [.commitMark], hall, Or.inr rfl, by rw [ht], rfl⟩
    | err e =>
      exact ⟨t, [], hall, Or.inl rfl,
        by rw [ht]; simp, rfl⟩
    | panik =>
      exact ⟨t, [], hall, Or.inl rfl,
        by rw [ht]; simp, rfl⟩
    | stuck =>
      exact ⟨t, [], hall, Or.inl rfl,
        by rw [ht]; simp, rfl⟩
  · left
    unfold Tracer.trace_arg0
    rw [hca, hc0]
    simp [hfork]

/-- Claim C5: `commit` is recorded exactly once on a successful return and
never on any failure path (invalid command, fork failure, event-loop error,
panic, or exhausted event stream). -/
theorem c5_commit_once (env : TraceEnv) (command : List Bytes) (arg0 : Bytes)
    (dbpath : FsPath) :
    commitCount (Tracer.trace_arg0 env command arg0 dbpath).dbEvents =
      (match (Tracer.trace_arg0 env command arg0 dbpath).result with
       | .ok _ => 1
       | _ => 0) := by
  cases hca : cstringAll command with
  | none =>
    unfold Tracer.trace_arg0
    rw [hca]
    simp [commitCount]
  | some args =>
  cases hc0 : cstringNew arg0 with
  | none =>
    unfold Tracer.trace_arg0
    rw [hca, hc0]
    simp [commitCount]
  | some a0 =>
  by_cases hfork : env.fork_ok = true
  · obtain ⟨res, s1, hloop, heq⟩ :=
      trace_arg0_forked_eq env command arg0 dbpath args a0 hca hc0 hfork
    obtain ⟨t, ht, hall⟩ := loopGo_events env.kernel env.child env.events
      ⟨⟨[(env.child, .Allocated ⟨⟨0⟩, env.child, ⟨env.cwd⟩⟩)],
        [((⟨0⟩ : ProcessId), env.child)]⟩,
       ⟨1 % 2 ^ 32,
        [.addProcess none env.cwd false ⟨0⟩,
         .addFileOpen ⟨0⟩ env.cwd FileOp.WDIR true]⟩,
       none⟩
    rw [hloop] at ht
    simp only [] at ht
    have hs1 : commitCount s1.database.events = 0 := by
      rw [ht, commitCount_append, commitCount_of_exits t hall]
      simp [commitCount, DbEvent.isCommit]
    rw [heq]
    cases res with
    | ok ret =>
      show commitCount (s1.database.events ++ [.commitMark]) = 1
      rw [commitCount_append, hs1]
      simp [commitCount, DbEvent.isCommit]
    | err e =>
      show commitCount s1.database.events = 0
      exact hs1
    | panik =>
      show commitCount s1.database.events = 0
      exact hs1
    | stuck =>
      show commitCount s1.database.events = 0
      exact hs1
  · unfold Tracer.trace_arg0
    rw [hca, hc0]
    simp [hfork, commitCount]

/-- Counterexample to C7 as stated: an `add_file_open` call with an empty
flag set (`mode = 0`) does not fail — the stub returns `Ok`
unconditionally. -/
theorem c7_empty_mode_accepted :
    Database.add_file_open ⟨0, []⟩ ⟨0⟩ "f" 0 false =
      .ok ⟨0, [.addFileOpen ⟨0⟩ "f" 0 false]⟩ := rfl

/-- Claim C7 (amended): every `add_file_open` record produced by the tracer
carries the `WDIR` flag — a nonempty flag set — but `Database.add_file_open`
itself performs no validation and succeeds for every mode, the empty set
included. -/
theorem c7_file_open_flags :
    (∀ (env : TraceEnv) (command : List Bytes) (arg0 : Bytes)
        (dbpath : FsPath) (id : ProcessId) (p : FsPath) (mode : FileOp)
        (d : Bool),
      DbEvent.addFileOpen id p mode d ∈
          (Tracer.trace_arg0 env command arg0 dbpath).dbEvents →
      mode = FileOp.WDIR ∧ mode ≠ 0) ∧
    ∀ (db : Database) (id : ProcessId) (p : FsPath) (mode : FileOp)
      (d : Bool), ∃ db1, Database.add_file_open db id p mode d = .ok db1 := by
  constructor
  · intro env command arg0 dbpath id p mode d hmem
    rcases trace_arg0_events_shape env command arg0 dbpath with
      hemp | ⟨t, c, hall, hc, hev, _⟩
    · rw [hemp] at hmem
      simp at hmem
    · rw [hev] at hmem
      rcases List.mem_append.mp hmem with hmem | hmem
      · rcases List.mem_append.mp hmem with hmem | hmem
        · simp at hmem
          exact ⟨hmem.2.2.1, by rw [hmem.2.2.1]; decide⟩
        · have h1 := hall _ hmem
          simp [DbEvent.isExit] at h1
      · rcases hc with hc | hc <;> rw [hc] at hmem <;> simp at hmem
  · intro db id p mode d
    exact ⟨_, rfl⟩

/-- Witness for C7 (amended): the single-tracee run records exactly one
`add_file_open`, carrying `WDIR`. -/
theorem c7_file_open_flags_witness :
    DbEvent.addFileOpen ⟨0⟩ "/wd" FileOp.WDIR true ∈
      (Tracer.trace_arg0
        ⟨true, 100, "/wd", [.Exited 100 0],
         ⟨fun _ => true, fun _ => true, fun _ => true⟩⟩
        [[65]] [65] "db").dbEvents ∧
    (FileOp.WDIR = FileOp.WDIR ∧ FileOp.WDIR ≠ 0) :=
  ⟨by decide,
   c7_file_open_flags.1
     ⟨true, 100, "/wd", [.Exited 100 0],
      ⟨fun _ => true, fun _ => true, fun _ => true⟩⟩
     [[65]] [65] "db" ⟨0⟩ "/wd" FileOp.WDIR true (by decide)⟩

/-- Claim C10: the clone/fork notification handler only resumes the tracee
and touches neither the registry nor the recorder; a TID held (at most) as
`Unknown` is never promoted — it stays `Unknown` until an exit removes it —
and the only `add_process` the recorder ever receives is the root's
(parent `None`). -/
theorem c10_unknown_stays :
    (∀ (env : KernelEnv) (fp : Pid) (s : LoopState) (pid : Pid)
        (sig : Signal) (ev : Int),
      step env fp s (.PtraceEvent pid sig ev) =
        if env.resume_ok pid then .cont s [.resume pid none]
        else .err s (.Internal "resume failed") [.resume pid none]) ∧
    (∀ (env : KernelEnv) (fp : Pid) (ws : List WaitStatus) (s : LoopState)
        (tid u : Pid),
      alookup tid s.processes.pid2process = some (.Unknown u) →
      (∃ u1, alookup tid (loopGo env fp s ws).2.processes.pid2process =
          some (.Unknown u1)) ∨
      alookup tid (loopGo env fp s ws).2.processes.pid2process = none) ∧
    ∀ (env : TraceEnv) (command : List Bytes) (arg0 : Bytes)
        (dbpath : FsPath) (parent : Option ProcessId) (wd : FsPath)
        (isth : Bool) (id : ProcessId),
      DbEvent.addProcess parent wd isth id ∈
          (Tracer.trace_arg0 env command arg0 dbpath).dbEvents →
      (Tracer.trace_arg0 env command arg0 dbpath).rootId = some id ∧
      parent = none := by
  refine ⟨fun env fp s pid sig ev => rfl, ?_, ?_⟩
  · intro env fp ws s tid u h
    rcases loopGo_unknown env fp ws s tid (Or.inr ⟨u, h⟩) with h1 | ⟨u1, h1⟩
    · exact Or.inr h1
    · exact Or.inl ⟨u1, h1⟩
  · intro env command arg0 dbpath parent wd isth id hmem
    rcases trace_arg0_events_shape env command arg0 dbpath with
      hemp | ⟨t, c, hall, hc, hev, hroot⟩
    · rw [hemp] at hmem
      simp at hmem
    · rw [hev] at hmem
      rcases List.mem_append.mp hmem with hmem | hmem
      · rcases List.mem_append.mp hmem with hmem | hmem
        · simp at hmem
          rw [hroot, hmem.2.2.2]
          exact ⟨rfl, hmem.1⟩
        · have h1 := hall _ hmem
          simp [DbEvent.isExit] at h1
      · rcases hc with hc | hc <;> rw [hc] at hmem <;> simp at hmem

/-- Witness for C10: the clone-handler equation at a concrete state, the
`Unknown`-preservation at a concrete registry, and the root-only
`add_process` for the single-tracee run. -/
theorem c10_unknown_stays_witness :
    ((∃ u1, alookup (7 : Pid)
        (loopGo ⟨fun _ => true, fun _ => true, fun _ => true⟩ 1
          ⟨⟨[((7 : Pid), .Unknown 7)], []⟩, ⟨1, []⟩, none⟩
          []).2.processes.pid2process = some (.Unknown u1)) ∨
      alookup (7 : Pid)
        (loopGo ⟨fun _ => true, fun _ => true, fun _ => true⟩ 1
          ⟨⟨[((7 : Pid), .Unknown 7)], []⟩, ⟨1, []⟩, none⟩
          []).2.processes.pid2process = none) ∧
    ((Tracer.trace_arg0
        ⟨true, 100, "/wd", [.Exited 100 0],
         ⟨fun _ => true, fun _ => true, fun _ => true⟩⟩
        [[65]] [65] "db").rootId = some ⟨0⟩ ∧
      (none : Option ProcessId) = none) :=
  ⟨c10_unknown_stays.2.1 ⟨fun _ => true, fun _ => true, fun _ => true⟩ 1
     [] ⟨⟨[((7 : Pid), .Unknown 7)], []⟩, ⟨1, []⟩, none⟩ 7 7 (by decide),
   c10_unknown_stays.2.2
     ⟨true, 100, "/wd", [.Exited 100 0],
      ⟨fun _ => true, fun _ => true, fun _ => true⟩⟩
     [[65]] [65] "db" none "/wd" false ⟨0⟩ (by decide)⟩
